import Mathlib

/-!
# Verification of the `.vr` scene-description parser

A shallow embedding, in Lean 4, of the tokenizer, recursive-descent grammar
rules and geometry builders of the DIVE `.vr` parser module
(`parseVrIntoScene` and its helper routines).

Modelling conventions:
* JavaScript numbers are modelled as exact rationals (`ℚ`).  All arithmetic
  the claims mention (min/max/midpoints, Newell sums, signed areas,
  comparisons against literal epsilons) is exact in this model.
* JavaScript exceptions are modelled with `Except String`; state mutated
  before a throw (the token-cursor index, views already pushed into an
  object) is returned alongside the error, matching in-place mutation.
* Unbounded `while` loops and the mutual recursion of the grammar rules take
  an explicit `fuel : ℕ` argument, decremented at every iteration or nested
  call, mirroring the unbounded loops and call stack of the source; concrete
  evaluations below pass an ample literal fuel.
* JavaScript field absence (`undefined`) on materials and views is modelled
  with `Option`.
-/

/- The core `Rat` operations are `@[irreducible]` by default, which blocks
kernel evaluation inside `decide`; making them semireducible lets the
concrete counterexamples and witnesses below evaluate. -/
unseal Rat.add Rat.mul Rat.sub Rat.inv Rat.ofScientific

namespace Vr

/-- A 3-vector of JS numbers. -/
abbrev V3 := ℚ × ℚ × ℚ

/-- Truncation toward zero, the first step of JS `ToInt32` on a finite number. -/
def jsTrunc (q : ℚ) : ℤ := if 0 ≤ q then q.floor else -((-q).floor)

/-- JS `x | 0` (`ToInt32`): truncate toward zero, then wrap into `[-2^31, 2^31)`. -/
def jsToInt32 (q : ℚ) : ℤ := (jsTrunc q + 2 ^ 31).emod (2 ^ 32) - 2 ^ 31

/-- JS array indexing `l[q]` with a number index: defined (`some`) exactly when
`q` is a nonnegative integer below the length, otherwise `undefined` (`none`). -/
def jsIndex {α : Type} (l : List α) (q : ℚ) : Option α :=
  if q.den = 1 ∧ 0 ≤ q.num then l.get? q.num.toNat else none

/-! ## Tokenizer (`removeComments`, `tokenize`) -/

/-- A token.  `chr` covers both the six punctuation characters and the
unknown-single-character fallback: in the source both carry
`type === <the character itself>`. -/
inductive Tok where
  | chr (c : Char)
  | str (s : String)
  | num (v : ℚ)
  | ident (s : String)
  | eof
deriving DecidableEq

/-- JS `/\s/` on the format's character set (ASCII whitespace forms). -/
def jsIsSpace (c : Char) : Bool :=
  c == ' ' || c == '\t' || c == '\n' || c == '\r' || c == Char.ofNat 11 || c == Char.ofNat 12

/-- The six punctuation characters recognised by the tokenizer. -/
def isPunct (c : Char) : Bool :=
  c == '{' || c == '}' || c == '(' || c == ')' || c == ',' || c == ';'

/-- Source `[A-Za-z_]` (`isIdentStart` of the source). -/
def isIdentStart (c : Char) : Bool := c.isAlpha || c == '_'

/-- Source `[A-Za-z0-9_\-]` (`isIdent` of the source): hyphens allowed in names. -/
def isIdent (c : Char) : Bool := c.isAlphanum || c == '_' || c == '-'

/-- Locate the first `*/`: the number of characters strictly before it and the
remainder after it (the lazy `[\s\S]*?` of the block-comment regex). -/
def findClose : List Char → Option (ℕ × List Char)
  | [] => none
  | c :: r =>
    if c = '*' ∧ r.head? = some '/' then some (0, r.tail)
    else (findClose r).map fun p => (p.1 + 1, p.2)

theorem findClose_length : ∀ {l : List Char} {k : ℕ} {r : List Char},
    findClose l = some (k, r) → k + 2 + r.length = l.length := by
  intro l
  induction l with
  | nil => intro k r h; simp [findClose] at h
  | cons c rest ih =>
    intro k r h
    by_cases hc : c = '*' ∧ rest.head? = some '/'
    · rw [findClose, if_pos hc] at h
      cases rest with
      | nil => simp at hc
      | cons d rest2 =>
        simp at hc
        injection h with h1
        injection h1 with hk hr
        subst hk; subst hr
        simp only [List.tail_cons, List.length_cons]
        omega
    · rw [findClose, if_neg hc] at h
      cases hfc : findClose rest with
      | none => rw [hfc] at h; simp at h
      | some p =>
        rw [hfc] at h
        simp at h
        obtain ⟨hk, hr⟩ := h
        have := ih (k := p.1) (r := p.2) (by rw [hfc])
        subst hk; subst hr
        simp only [List.tail_cons, List.length_cons]
        omega

/-- Replace each `/* ... */` block comment with same-length whitespace
(first pass of `removeComments`).  The `fuel` argument makes the recursion
structural (so that concrete inputs evaluate inside the kernel); every step
consumes at least one character (`findClose_length`), so fuel equal to the
input length — what `removeComments` passes — never runs out. -/
def stripBlock : ℕ → List Char → List Char
  | 0, l => l
  | fuel + 1, l =>
    match l with
    | [] => []
    | c :: r =>
      if c = '/' ∧ r.head? = some '*' then
        match findClose r.tail with
        | some p => List.replicate (p.1 + 4) ' ' ++ stripBlock fuel p.2
        | none => c :: r
      else c :: stripBlock fuel r

/-- Characters up to (excluding) the next line terminator: their count and the
rest starting at that terminator. -/
def takeLine : List Char → ℕ × List Char
  | [] => (0, [])
  | c :: r =>
    if c = '\n' ∨ c = '\r' then (0, c :: r)
    else ((takeLine r).1 + 1, (takeLine r).2)

theorem takeLine_length_le : ∀ (l : List Char), (takeLine l).2.length ≤ l.length := by
  intro l
  induction l with
  | nil => simp [takeLine]
  | cons c r ih =>
    by_cases hc : c = '\n' ∨ c = '\r'
    · simp [takeLine, hc]
    · simp only [takeLine, if_neg hc, List.length_cons]
      omega

/-- Replace each `%`-to-end-of-line comment with same-length whitespace
(fuelled like `stripBlock`; `takeLine_length_le` bounds each step). -/
def stripPercent : ℕ → List Char → List Char
  | 0, l => l
  | fuel + 1, l =>
    match l with
    | [] => []
    | c :: r =>
      if c = '%' then
        List.replicate ((takeLine r).1 + 1) ' ' ++ stripPercent fuel (takeLine r).2
      else c :: stripPercent fuel r

/-- Replace each `//`-to-end-of-line comment with same-length whitespace. -/
def stripSlash : ℕ → List Char → List Char
  | 0, l => l
  | fuel + 1, l =>
    match l with
    | [] => []
    | c :: r =>
      if c = '/' ∧ r.head? = some '/' then
        List.replicate ((takeLine r.tail).1 + 2) ' ' ++ stripSlash fuel (takeLine r.tail).2
      else c :: stripSlash fuel r

/-- The three comment-elision passes, in source order: block comments, then
`%` line comments, then `//` line comments. -/
def removeComments (l : List Char) : List Char :=
  let b := stripBlock l.length l
  let p := stripPercent b.length b
  stripSlash p.length p

/-- Maximal digit prefix and the remainder. -/
def takeDigits : List Char → List Char × List Char
  | [] => ([], [])
  | c :: r =>
    if c.isDigit then ((c :: (takeDigits r).1), (takeDigits r).2)
    else ([], c :: r)

theorem takeDigits_length : ∀ (l : List Char),
    (takeDigits l).1.length + (takeDigits l).2.length = l.length := by
  intro l
  induction l with
  | nil => simp [takeDigits]
  | cons c r ih =>
    by_cases hc : c.isDigit
    · simp only [takeDigits, if_pos hc, List.length_cons]; omega
    · simp [takeDigits, hc]

/-- Decimal value of a digit run. -/
def digitsVal (ds : List Char) : ℕ := ds.foldl (fun a c => a * 10 + (c.toNat - 48)) 0

/-- The optional sign of the number regex and of its exponent: multiplier,
remainder, characters consumed. -/
def signMatch (one : ℚ) (l : List Char) : ℚ × List Char × ℕ :=
  if l.head? = some '+' then (one, l.tail, 1)
  else if l.head? = some '-' then (-one, l.tail, 1)
  else (one, l, 0)

theorem signMatch_length (one : ℚ) (l : List Char) :
    (signMatch one l).2.1.length + (signMatch one l).2.2 = l.length ∧
      (signMatch one l).2.2 ≤ 1 := by
  rw [signMatch]
  split
  · rename_i hh; cases l <;> simp_all
  · split
    · rename_i hh; cases l <;> simp_all
    · simp

/-- The optional exponent part `[eE][+-]?\d+` of the number regex: its signed
value and the number of characters it consumes (`(0, 0)` when absent). -/
def expMatch (l : List Char) : ℤ × ℕ :=
  if l.head? = some 'e' ∨ l.head? = some 'E' then
    let s := signMatch 1 l.tail
    let ds := (takeDigits s.2.1).1
    if ds.isEmpty then (0, 0)
    else ((if s.1 = 1 then 1 else -1) * (digitsVal ds : ℤ), 1 + s.2.2 + ds.length)
  else (0, 0)

theorem expMatch_le (l : List Char) : (expMatch l).2 ≤ l.length := by
  rw [expMatch]
  dsimp only
  split
  · rename_i hh
    have htl : l.tail.length + 1 = l.length := by
      rcases hh with hh | hh <;> cases l <;> simp_all
    have hs := signMatch_length 1 l.tail
    have hds := takeDigits_length (signMatch 1 l.tail).2.1
    split
    · simp
    · simp only; omega
  · simp

/-- The anchored number regex `[+-]?(?:\d*\.\d+|\d+)(?:[eE][+-]?\d+)?`:
the token's numeric value (the source applies `parseFloat` to the match,
exact here) and the number of characters consumed, or `none` when the regex
does not match at this position. -/
def numMatch (l : List Char) : Option (ℚ × ℕ) :=
  let s := signMatch 1 l
  let d1 := takeDigits s.2.1
  if d1.2.head? = some '.' then
    let d2 := takeDigits d1.2.tail
    if d2.1.isEmpty then
      if d1.1.isEmpty then none
      else some (s.1 * (digitsVal d1.1 : ℚ), s.2.2 + d1.1.length)
    else
      let e := expMatch d2.2
      some (s.1 * ((digitsVal d1.1 : ℚ) + (digitsVal d2.1 : ℚ) / (10 : ℚ) ^ d2.1.length)
              * (10 : ℚ) ^ e.1,
            s.2.2 + d1.1.length + 1 + d2.1.length + e.2)
  else
    if d1.1.isEmpty then none
    else
      let e := expMatch d1.2
      some (s.1 * (digitsVal d1.1 : ℚ) * (10 : ℚ) ^ e.1, s.2.2 + d1.1.length + e.2)

theorem numMatch_consumed {l : List Char} {v : ℚ} {n : ℕ}
    (h : numMatch l = some (v, n)) : 1 ≤ n ∧ n ≤ l.length := by
  rw [numMatch] at h
  dsimp only at h
  have hs := signMatch_length 1 l
  have hd1 := takeDigits_length (signMatch 1 l).2.1
  split at h
  · rename_i hdot
    have hdl : (takeDigits (signMatch 1 l).2.1).2.tail.length + 1 =
        (takeDigits (signMatch 1 l).2.1).2.length := by
      cases hq : (takeDigits (signMatch 1 l).2.1).2 <;> simp_all
    have hd2 := takeDigits_length (takeDigits (signMatch 1 l).2.1).2.tail
    split at h
    · split at h
      · exact absurd h (by simp)
      · rename_i hne
        simp only [Option.some.injEq, Prod.mk.injEq] at h
        have hpos : 1 ≤ (takeDigits (signMatch 1 l).2.1).1.length := by
          cases hq : (takeDigits (signMatch 1 l).2.1).1 <;> simp_all
        omega
    · rename_i hne
      simp only [Option.some.injEq, Prod.mk.injEq] at h
      have hexp := expMatch_le (takeDigits (takeDigits (signMatch 1 l).2.1).2.tail).2
      have hpos : 1 ≤ (takeDigits (takeDigits (signMatch 1 l).2.1).2.tail).1.length := by
        cases hq : (takeDigits (takeDigits (signMatch 1 l).2.1).2.tail).1 <;> simp_all
      omega
  · split at h
    · exact absurd h (by simp)
    · rename_i hne
      simp only [Option.some.injEq, Prod.mk.injEq] at h
      have hexp := expMatch_le (takeDigits (signMatch 1 l).2.1).2
      have hpos : 1 ≤ (takeDigits (signMatch 1 l).2.1).1.length := by
        cases hq : (takeDigits (signMatch 1 l).2.1).1 <;> simp_all
      omega

/-- Scan a quoted string body (opening quote already consumed): collected
characters (with `\x` collapsing to `x`) and the remainder after the closing
quote.  An unterminated string consumes to end of input. -/
def scanString : List Char → List Char × List Char
  | [] => ([], [])
  | c :: r =>
    if c = '\\' then
      match r with
      | d :: r2 => ((d :: (scanString r2).1), (scanString r2).2)
      | [] => (['\\'], [])
    else if c = '"' then ([], r)
    else ((c :: (scanString r).1), (scanString r).2)

theorem scanString_le : ∀ (l : List Char), (scanString l).2.length ≤ l.length
  | [] => by simp [scanString]
  | c :: r => by
    rw [scanString.eq_def]
    by_cases hc : c = '\\'
    · cases r with
      | nil => simp [if_pos hc]
      | cons d r2 =>
        have := scanString_le r2
        simp only [if_pos hc, List.length_cons]
        omega
    · by_cases hq : c = '"'
      · simp [if_neg hc, if_pos hq]
      · have := scanString_le r
        simp only [if_neg hc, if_neg hq, List.length_cons]
        omega

/-- Scan the continuation characters of an identifier. -/
def scanIdent : List Char → List Char × List Char
  | [] => ([], [])
  | c :: r =>
    if isIdent c then ((c :: (scanIdent r).1), (scanIdent r).2)
    else ([], c :: r)

theorem scanIdent_le : ∀ (l : List Char), (scanIdent l).2.length ≤ l.length := by
  intro l
  induction l with
  | nil => simp [scanIdent]
  | cons c r ih =>
    by_cases hc : isIdent c
    · simp only [scanIdent, if_pos hc, List.length_cons]; omega
    · simp [scanIdent, hc]

/-- The main tokenizer loop over the comment-stripped character list.  The
`fuel` argument makes the recursion structural; every branch consumes at
least one character (`scanString_le`, `scanIdent_le`, `numMatch_consumed`),
so the input length — which `tokenize` passes, and `tokenizeAux_fuel` below
proves sufficient — never runs out. -/
def tokenizeAux : ℕ → List Char → List Tok
  | 0, _ => []
  | fuel + 1, l =>
    match l with
    | [] => []
    | c :: rest =>
      if jsIsSpace c then tokenizeAux fuel rest
      else if isPunct c then .chr c :: tokenizeAux fuel rest
      else if c = '"' then
        .str (String.mk (scanString rest).1) :: tokenizeAux fuel (scanString rest).2
      else
        match numMatch (c :: rest) with
        | some p => .num p.1 :: tokenizeAux fuel (List.drop p.2 (c :: rest))
        | none =>
          if isIdentStart c then
            .ident (String.mk (c :: (scanIdent rest).1)) :: tokenizeAux fuel (scanIdent rest).2
          else .chr c :: tokenizeAux fuel rest

/-- Any fuel at least the input length gives the same token list: the
tokenizer's result is fuel-independent from the length on, i.e. the loop
always terminates within `l.length` steps. -/
theorem tokenizeAux_fuel : ∀ (f1 f2 : ℕ) (l : List Char), l.length ≤ f1 → l.length ≤ f2 →
    tokenizeAux f1 l = tokenizeAux f2 l := by
  intro f1
  induction f1 using Nat.strong_induction_on with
  | _ f1 ih =>
    intro f2 l h1 h2
    match l with
    | [] =>
      cases f1 <;> cases f2 <;> simp [tokenizeAux]
    | c :: rest =>
      simp only [List.length_cons] at h1 h2
      match f1, f2 with
      | g1 + 1, g2 + 1 =>
        rw [tokenizeAux, tokenizeAux]
        have hrest : rest.length ≤ g1 ∧ rest.length ≤ g2 := by omega
        split
        · exact ih g1 (by omega) g2 rest hrest.1 hrest.2
        · split
          · rw [ih g1 (by omega) g2 rest hrest.1 hrest.2]
          · split
            · have hs := scanString_le rest
              rw [ih g1 (by omega) g2 (scanString rest).2 (by omega) (by omega)]
            · match hnum : numMatch (c :: rest) with
              | some p =>
                have hc := numMatch_consumed hnum
                simp only [List.length_cons] at hc
                have hd : (List.drop p.2 (c :: rest)).length ≤ rest.length := by
                  simp only [List.length_drop, List.length_cons]
                  omega
                dsimp only
                rw [ih g1 (by omega) g2 (List.drop p.2 (c :: rest)) (by omega) (by omega)]
              | none =>
                dsimp only
                split
                · have hs := scanIdent_le rest
                  rw [ih g1 (by omega) g2 (scanIdent rest).2 (by omega) (by omega)]
                · rw [ih g1 (by omega) g2 rest hrest.1 hrest.2]

/-- Source `tokenize`: comment removal, the scan loop, then the trailing `EOF`. -/
def tokenize (s : String) : List Tok :=
  let l := removeComments s.data
  tokenizeAux l.length l ++ [.eof]

/-! ## Scene data model -/

/-- A material.  Every field is an `Option` because the source's material
objects are plain records whose fields may be absent (the injected default
gray material carries only `name` and `diffuse`). -/
structure Material where
  name : Option String := none
  ambient : Option V3 := none
  diffuse : Option V3 := none
  emission : Option V3 := none
  specular : Option V3 := none
  spec_power : Option ℚ := none
  transparency : Option ℚ := none
deriving DecidableEq

/-- The material record built for `material "NAME"` and as the base record of
a `material { ... }` block. -/
def baseMaterial (nm : Option String) : Material :=
  { name := nm
    ambient := some (0, 0, 0)
    diffuse := some (4/5, 4/5, 4/5)
    emission := some (0, 0, 0)
    specular := some (0, 0, 0)
    spec_power := some 0
    transparency := some 0 }

/-- The material record built for `material rgb r g b` (rgb sets both ambient
and diffuse). -/
def rgbMaterial (r g b : ℚ) : Material :=
  { name := none
    ambient := some (r, g, b)
    diffuse := some (r, g, b)
    emission := some (0, 0, 0)
    specular := some (0, 0, 0)
    spec_power := some 0
    transparency := some 0 }

/-- The default `GRAY` material appended by the post-parse pass of
`parseVrIntoScene` (`#808080`; only `name` and `diffuse` are present). -/
def grayMaterial : Material :=
  { name := some "GRAY", diffuse := some (128/255, 128/255, 128/255) }

/-- An object-level transform entry. -/
inductive Transform where
  | translation (v : V3)
  | eulerxyz (v : V3)
  | fixedxyz (v : V3)
  | rotation (v1 v2 v3 : V3)
deriving DecidableEq

/-- The shape-specific part of a view record. -/
inductive ViewGeom where
  | rbox (center size : V3)
  | cylinder (center : V3) (rx ry height : ℚ)
  | sphere (rx ry rz : ℚ)
  | mesh (positions : List ℚ) (indices : List ℕ)
      (normals : Option (List ℚ)) (texcoords : Option (List ℚ))
  | lines (positions : List ℚ) (indices : List ℕ)
deriving DecidableEq

/-- A view record: shape data plus the wrapper/resolution fields.  `Option`
models JS `null` as well as field absence. -/
structure View where
  geom : ViewGeom
  material_index : Option ℚ := none
  texture_index : Option ℚ := none
  view_index : Option ℚ := none
  material : Option Material := none
  texture : Option String := none
deriving DecidableEq

/-- The optional `normals` field of a mesh view (`none` for other shapes). -/
def View.meshNormals (v : View) : Option (List ℚ) :=
  match v.geom with
  | .mesh _ _ n _ => n
  | _ => none

/-- The optional `texcoords` field of a mesh view (`none` for other shapes). -/
def View.meshTexcoords (v : View) : Option (List ℚ) :=
  match v.geom with
  | .mesh _ _ _ t => t
  | _ => none

/-- The non-recursive fields of an object. -/
structure ObjData where
  name : Option String := none
  id : Option ℚ := none
  materials : List Material := []
  textures : List String := []
  transforms : List Transform := []
  views : List View := []
deriving DecidableEq

/-- An object: its own fields plus child objects (`obj.children`). -/
inductive Obj where
  | node (data : ObjData) (children : List Obj)

mutual

def Obj.decEq : (a b : Obj) → Decidable (a = b)
  | .node d1 c1, .node d2 c2 =>
    if hd : d1 = d2 then
      match Obj.decEqList c1 c2 with
      | isTrue h2 => isTrue (by rw [hd, h2])
      | isFalse h2 => isFalse fun he => by injection he with hd2 hc; exact h2 hc
    else isFalse fun he => by injection he with hd2 hc; exact hd hd2

def Obj.decEqList : (a b : List Obj) → Decidable (a = b)
  | [], [] => isTrue rfl
  | [], _ :: _ => isFalse (by simp)
  | _ :: _, [] => isFalse (by simp)
  | x :: xs, y :: ys =>
    match Obj.decEq x y, Obj.decEqList xs ys with
    | isTrue h1, isTrue h2 => isTrue (by rw [h1, h2])
    | isFalse h1, _ => isFalse fun he => by injection he with hh ht; exact h1 hh
    | isTrue _, isFalse h2 => isFalse fun he => by injection he with hh ht; exact h2 ht

end

instance : DecidableEq Obj := Obj.decEq

/-- The fresh object literal at the top of `parseObject`. -/
def emptyObj : Obj := .node {} []

def Obj.data : Obj → ObjData
  | .node d _ => d

def Obj.children : Obj → List Obj
  | .node _ c => c

/-- Update the non-recursive fields of an object. -/
def Obj.mapData (o : Obj) (f : ObjData → ObjData) : Obj :=
  .node (f o.data) o.children

/-- Source `obj.children.push(child)`. -/
def Obj.pushChild (o child : Obj) : Obj :=
  .node o.data (o.children ++ [child])

def Obj.materials (o : Obj) : List Material := o.data.materials

def Obj.textures (o : Obj) : List String := o.data.textures

def Obj.views (o : Obj) : List View := o.data.views

/-- The `world` record of a scene. -/
structure World where
  background : V3
  start : V3
deriving DecidableEq

/-- A scene: world settings plus the top-level objects. -/
structure Scene where
  world : World
  objects : List Obj
deriving DecidableEq

/-- Source `emtpyScene` (name as in the source): default world, no objects. -/
def emtpyScene : Scene :=
  { world := { background := (1/5, 1/5, 1/4), start := (0, 0, 3) }, objects := [] }

/-- Append a view to an object's view sequence
(`parentObject.views.push(view)`). -/
def pushView (o : Obj) (v : View) : Obj :=
  o.mapData fun d => { d with views := d.views ++ [v] }

/-! ## Token cursor -/

/-- Source `this.tokens[i] || { type: 'EOF' }`: the token at a cursor position.  The
token list always physically ends with `Tok.eof`, and reads past the end also
yield `eof`. -/
def peekT (tk : List Tok) (i : ℕ) : Tok := tk.getD i .eof

theorem peekT_ne_eof_lt {tk : List Tok} {i : ℕ} (h : peekT tk i ≠ .eof) :
    i < tk.length := by
  by_contra hge
  have : tk.get? i = none := List.get?_eq_none.2 (by omega)
  rw [peekT, List.getD, this] at h
  simp at h

/-- Source `expect('number')`: consume one token; error unless it is a number.
The cursor advances even on failure, as `next()` does. -/
def expectNum (tk : List Tok) (i : ℕ) : Except String ℚ × ℕ :=
  match peekT tk i with
  | .num v => (.ok v, i + 1)
  | _ => (.error "Unexpected token: expected number", i + 1)

/-- Source `expect('{')` (and its analogue for any punctuation character). -/
def expectChr (c : Char) (tk : List Tok) (i : ℕ) : Except String Unit × ℕ :=
  if peekT tk i = .chr c then (.ok (), i + 1)
  else (.error "Unexpected token: expected punctuation", i + 1)

/-- Source `accept(c)`: consume the token if it is the punctuation `c`. -/
def acceptChr (c : Char) (tk : List Tok) (i : ℕ) : ℕ :=
  if peekT tk i = .chr c then i + 1 else i

/-- JS `String.prototype.toLowerCase` on the ASCII keywords the grammar
compares (a kernel-evaluable replacement for `String.toLower`). -/
def jsToLower (s : String) : String := String.mk (s.data.map Char.toLower)

/-- Source `peekIs('ident', w)`. -/
def peekIsIdent (tk : List Tok) (i : ℕ) (w : String) : Bool :=
  peekT tk i = .ident w

/-- True when the upcoming token is a number. -/
def peekIsNum (tk : List Tok) (i : ℕ) : Bool :=
  match peekT tk i with
  | .num _ => true
  | _ => false

/-- Consume up to three numbers (the tail of `skipValue`'s `v` handling). -/
def skipVNums (tk : List Tok) (i : ℕ) : ℕ :=
  if peekIsNum tk i then
    if peekIsNum tk (i + 1) then
      if peekIsNum tk (i + 2) then i + 3 else i + 2
    else i + 1
  else i

/-- Source `skipValue()`: consume one value — a string, a number, a `v`-vector, or
any single token as fallback. -/
def skipValue (tk : List Tok) (i : ℕ) : ℕ :=
  match peekT tk i with
  | .str _ => i + 1
  | .num _ => i + 1
  | .ident w => if w = "v" then skipVNums tk (i + 1) else i + 1
  | _ => i + 1

/-- The depth-counting loop body of `skipBlock` (opening brace already
consumed).  Fuelled structurally; each iteration advances the cursor by one
and the loop stops at `eof`, so `tk.length + 1` fuel — what `skipBlock`
passes — is enough from any starting position. -/
def skipBlockAux (tk : List Tok) : ℕ → ℕ → ℕ → ℕ
  | 0, i, _ => i
  | fuel + 1, i, depth =>
    match peekT tk i with
    | .eof => i + 1
    | .chr c =>
      if c = '{' then skipBlockAux tk fuel (i + 1) (depth + 1)
      else if c = '}' then
        if depth = 0 then i + 1 else skipBlockAux tk fuel (i + 1) (depth - 1)
      else skipBlockAux tk fuel (i + 1) depth
    | .str _ => skipBlockAux tk fuel (i + 1) depth
    | .num _ => skipBlockAux tk fuel (i + 1) depth
    | .ident _ => skipBlockAux tk fuel (i + 1) depth

/-- Source `skipBlock()`: skip a balanced `{ ... }` block if one starts here. -/
def skipBlock (tk : List Tok) (i : ℕ) : ℕ :=
  if peekT tk i = .chr '{' then skipBlockAux tk (tk.length + 1) (i + 1) 0 else i

/-- Source `parseVector()`: optional leading `v`, then three numbers.  Errors leave
the cursor just past the offending token, as the source's `next()` does. -/
def parseVector (tk : List Tok) (i : ℕ) : Except String V3 × ℕ :=
  let i0 := if peekIsIdent tk i "v" then i + 1 else i
  match peekT tk i0 with
  | .num x =>
    match peekT tk (i0 + 1) with
    | .num y =>
      match peekT tk (i0 + 2) with
      | .num z => (.ok (x, y, z), i0 + 3)
      | _ => (.error "Expected number for vector Z", i0 + 3)
    | _ => (.error "Expected number for vector Y", i0 + 2)
  | _ => (.error "Expected number for vector X", i0 + 1)

/-! ## Primitive view rules -/

/-- The material-attachment step shared by the RBOX, CYL and SPHERE rules:
if the owning object has materials, attach `materials[material_index]` when
that lookup is defined, else `materials[0]`. -/
def resolveMat (ms : List Material) (mi : Option ℚ) : Option Material :=
  if ms.isEmpty then none
  else
    match mi with
    | some q =>
      match jsIndex ms q with
      | some m => some m
      | none => ms.head?
    | none => ms.head?

/-- The box construction of `parseRBox`: per-axis min/max of the two corners,
center = midpoint, size = extent. -/
def rboxCenterSize (a b : V3) : V3 × V3 :=
  let minx := min a.1 b.1
  let maxx := max a.1 b.1
  let miny := min a.2.1 b.2.1
  let maxy := max a.2.1 b.2.1
  let minz := min a.2.2 b.2.2
  let maxz := max a.2.2 b.2.2
  (((minx + maxx) / 2, (miny + maxy) / 2, (minz + maxz) / 2),
   (maxx - minx, maxy - miny, maxz - minz))

/-- Source `parseRBox`: two (optionally `v`-prefixed) corner vectors, then an `rbox`
view pushed onto the parent object.  A vector error propagates (uncaught
here) with the object unchanged. -/
def parseRBox (tk : List Tok) (i : ℕ) (obj : Obj) (mi vi : Option ℚ) :
    Except String Unit × Obj × ℕ :=
  match parseVector tk i with
  | (.error e, i1) => (.error e, obj, i1)
  | (.ok a, i1) =>
    match parseVector tk i1 with
    | (.error e, i2) => (.error e, obj, i2)
    | (.ok b, i2) =>
      let cs := rboxCenterSize a b
      let view : View :=
        { geom := .rbox cs.1 cs.2
          material_index := mi
          view_index := vi
          material := resolveMat obj.materials mi }
      (.ok (), pushView obj view, i2)

/-- The trailing skip loop of `parseCyl`: consume numbers/idents/strings
until `;`, `}` or end of stream. -/
def cylSkip (tk : List Tok) : ℕ → ℕ → ℕ
  | 0, i => i
  | fuel + 1, i =>
    match peekT tk i with
    | .chr _ => i
    | .eof => i
    | .num _ => cylSkip tk fuel (i + 1)
    | .ident _ => cylSkip tk fuel (i + 1)
    | .str _ => cylSkip tk fuel (i + 1)

/-- Source `parseCyl`: optional `v` center (errors ignored, center left at origin),
then three numbers rx/ry/height (peeked before consumption, so an error
leaves the cursor on the offending token), a skipped tail, an optional `;`,
then a `cylinder` view pushed onto the parent. -/
def parseCyl (tk : List Tok) (fuel i : ℕ) (obj : Obj) (mi vi : Option ℚ) :
    Except String Unit × Obj × ℕ :=
  let c0 : V3 × ℕ :=
    if peekIsIdent tk i "v" then
      match parseVector tk i with
      | (.ok v, i1) => (v, i1)
      | (.error _, i1) => ((0, 0, 0), i1)
    else ((0, 0, 0), i)
  let center := c0.1
  let i1 := c0.2
  match peekT tk i1 with
  | .num rx =>
    match peekT tk (i1 + 1) with
    | .num ry =>
      match peekT tk (i1 + 2) with
      | .num height =>
        let i2 := cylSkip tk fuel (i1 + 3)
        let i3 := acceptChr ';' tk i2
        let view : View :=
          { geom := .cylinder center rx ry height
            material_index := mi
            view_index := vi
            material := resolveMat obj.materials mi }
        (.ok (), pushView obj view, i3)
      | _ => (.error "CYL expected height number", obj, i1 + 2)
    | _ => (.error "CYL expected ry number", obj, i1 + 1)
  | _ => (.error "CYL expected rx number", obj, i1)

/-- The up-to-three-numbers read at the head of `parseSphereInView`. -/
def sphereNums (tk : List Tok) (i : ℕ) : List ℚ × ℕ :=
  match peekT tk i with
  | .num a =>
    match peekT tk (i + 1) with
    | .num b =>
      match peekT tk (i + 2) with
      | .num c => ([a, b, c], i + 3)
      | _ => ([a, b], i + 2)
    | _ => ([a], i + 1)
  | _ => ([], i)

/-- Source `parseSphereInView`: up to three numbers; one number sets a uniform
radius, three set per-axis radii, anything else leaves the `0.5` defaults.
Never raises. -/
def parseSphereInView (tk : List Tok) (i : ℕ) (obj : Obj) (mi ti vi : Option ℚ) :
    Except String Unit × Obj × ℕ :=
  let p := sphereNums tk i
  let r : ℚ × ℚ × ℚ :=
    match p.1 with
    | [n] => (n, n, n)
    | [a, b, c] => (a, b, c)
    | _ => (1/2, 1/2, 1/2)
  let view : View :=
    { geom := .sphere r.1 r.2.1 r.2.2
      material_index := mi
      texture_index := ti
      view_index := vi
      material := resolveMat obj.materials mi }
  (.ok (), pushView obj view, p.2)

/-- Bilinear interpolation of one coordinate over the four QUAD_GRID corners. -/
def bilin (tx ty c0 c1 c2 c3 : ℚ) : ℚ :=
  (1 - tx) * (1 - ty) * c0 + (1 - tx) * ty * c1 + tx * (1 - ty) * c2 + tx * ty * c3

/-- The generated QUAD_GRID vertex positions (row-major, per-axis bilinear). -/
def quadGridPos (nx ny : ℤ) (p0 p1 p2 p3 : V3) : List ℚ :=
  (List.range ny.toNat).flatMap fun iy =>
    (List.range nx.toNat).flatMap fun ix =>
      let ty : ℚ := if ny = 1 then 1/2 else (iy : ℚ) / ((ny : ℚ) - 1)
      let tx : ℚ := if nx = 1 then 1/2 else (ix : ℚ) / ((nx : ℚ) - 1)
      [bilin tx ty p0.1 p1.1 p2.1 p3.1,
       bilin tx ty p0.2.1 p1.2.1 p2.2.1 p3.2.1,
       bilin tx ty p0.2.2 p1.2.2 p2.2.2 p3.2.2]

/-- The generated QUAD_GRID triangle indices (two per cell, fixed diagonal). -/
def quadGridIdx (nx ny : ℤ) : List ℕ :=
  (List.range (ny.toNat - 1)).flatMap fun iy =>
    (List.range (nx.toNat - 1)).flatMap fun ix =>
      let i0 := iy * nx.toNat + ix
      [i0, i0 + nx.toNat, i0 + 1, i0 + 1, i0 + nx.toNat, i0 + nx.toNat + 1]

/-- Source `parseQuadGrid`: two counts (`| 0`-truncated), four corner vectors, then a
`mesh` view from the bilinear grid.  No material is attached here. -/
def parseQuadGrid (tk : List Tok) (i : ℕ) (obj : Obj) (mi ti vi : Option ℚ) :
    Except String Unit × Obj × ℕ :=
  match expectNum tk i with
  | (.error e, i1) => (.error e, obj, i1)
  | (.ok nxq, i1) =>
  match expectNum tk i1 with
  | (.error e, i2) => (.error e, obj, i2)
  | (.ok nyq, i2) =>
  match parseVector tk i2 with
  | (.error e, i3) => (.error e, obj, i3)
  | (.ok p0, i3) =>
  match parseVector tk i3 with
  | (.error e, i4) => (.error e, obj, i4)
  | (.ok p1, i4) =>
  match parseVector tk i4 with
  | (.error e, i5) => (.error e, obj, i5)
  | (.ok p2, i5) =>
  match parseVector tk i5 with
  | (.error e, i6) => (.error e, obj, i6)
  | (.ok p3, i6) =>
    let nx := jsToInt32 nxq
    let ny := jsToInt32 nyq
    let view : View :=
      { geom := .mesh (quadGridPos nx ny p0 p1 p2 p3) (quadGridIdx nx ny) none none
        material_index := mi
        texture_index := ti
        view_index := vi }
    (.ok (), pushView obj view, i6)

/-- The fan triangulation of `parseNPoly`: triangles `(0, i, i+1)` for
`i = 1 .. count-2`, flattened. -/
def fanIndices (count : ℕ) : List ℕ :=
  (List.range' 1 (count - 2)).flatMap fun k => [0, k, k + 1]

/-- The vertex-reading loop of `parseNPoly`: `count` vertices, each an
optionally `v`-prefixed position, optionally followed by `t u v` texture
coordinates (padded with zeros once any vertex has them). -/
def nPolyLoop (tk : List Tok) : ℕ → ℕ → Bool → List ℚ → List ℚ →
    Except String (List ℚ × List ℚ × Bool) × ℕ
  | 0, i, hasTex, pos, tex => (.ok (pos, tex, hasTex), i)
  | n + 1, i, hasTex, pos, tex =>
    match parseVector tk i with
    | (.error e, i1) => (.error e, i1)
    | (.ok v, i1) =>
      if peekIsIdent tk i1 "t" then
        match expectNum tk (i1 + 1) with
        | (.error e, i2) => (.error e, i2)
        | (.ok u, i2) =>
          match expectNum tk i2 with
          | (.error e, i3) => (.error e, i3)
          | (.ok w, i3) =>
            nPolyLoop tk n i3 true (pos ++ [v.1, v.2.1, v.2.2]) (tex ++ [u, w])
      else if hasTex then
        nPolyLoop tk n i1 hasTex (pos ++ [v.1, v.2.1, v.2.2]) (tex ++ [0, 0])
      else nPolyLoop tk n i1 hasTex (pos ++ [v.1, v.2.1, v.2.2]) tex

/-- Source `parseNPoly`: a count (`| 0`-truncated; fewer than 3 vertices warns and
produces no view), `count` vertices, then a fan-triangulated `mesh` view.
Texture coordinates are attached only when present for every vertex. -/
def parseNPoly (tk : List Tok) (i : ℕ) (obj : Obj) (mi ti vi : Option ℚ) :
    Except String Unit × Obj × ℕ :=
  match expectNum tk i with
  | (.error e, i1) => (.error e, obj, i1)
  | (.ok cq, i1) =>
    let count := jsToInt32 cq
    if count < 3 then (.ok (), obj, i1)
    else
      match nPolyLoop tk count.toNat i1 false [] [] with
      | (.error e, i2) => (.error e, obj, i2)
      | (.ok r, i2) =>
        let view : View :=
          { geom := .mesh r.1 (fanIndices count.toNat) none
              (if r.2.2 = true ∧ r.2.1.length = count.toNat * 2 then some r.2.1 else none)
            material_index := mi
            texture_index := ti
            view_index := vi }
        (.ok (), pushView obj view, i2)

/-- The vector-reading loop of `parseLinePrimitive`: `v`-vectors until a
non-`v` token, `}`, end of stream, a vector error (caught: break), or the
declared count is reached. -/
def lineVerts (tk : List Tok) : ℕ → ℕ → Option ℤ → List ℚ → List ℚ × ℕ
  | 0, i, _, acc => (acc, i)
  | fuel + 1, i, cnt, acc =>
    if peekT tk i = .chr '}' ∨ peekT tk i = .eof then (acc, i)
    else if peekIsIdent tk i "v" then
      match parseVector tk i with
      | (.error _, i1) => (acc, i1)
      | (.ok v, i1) =>
        let acc2 := acc ++ [v.1, v.2.1, v.2.2]
        match cnt with
        | some c =>
          if c ≤ ((acc2.length / 3 : ℕ) : ℤ) then (acc2, i1)
          else lineVerts tk fuel i1 cnt acc2
        | none => lineVerts tk fuel i1 cnt acc2
    else (acc, i)

/-- Consecutive line-segment indices for `vcount` vertices. -/
def lineIndices (vcount : ℕ) : List ℕ :=
  (List.range (vcount - 1)).flatMap fun k => [k, k + 1]

/-- Source `parseLinePrimitive` (`N_LINE` with an optional count, or `LINE`):
vectors into a `lines` view.  Never raises (vector errors break the loop). -/
def parseLinePrimitive (tk : List Tok) (fuel i : ℕ) (kind : String) (obj : Obj)
    (mi ti vi : Option ℚ) : Except String Unit × Obj × ℕ :=
  let c0 : Option ℤ × ℕ :=
    match peekT tk i with
    | .num q => if kind = "N_LINE" then (some (jsToInt32 q), i + 1) else (none, i)
    | _ => (none, i)
  let p := lineVerts tk fuel c0.2 c0.1 []
  let view : View :=
    { geom := .lines p.1 (lineIndices (p.1.length / 3))
      material_index := mi
      texture_index := ti
      view_index := vi }
  (.ok (), pushView obj view, p.2)

/-! ## Ear-clipping triangulation (the `indexed_poly` helpers)

`computeNormalNewell` below keeps the raw Newell sums.  The source divides
them by `Math.hypot(nx, ny, nz) || 1`, a strictly positive scalar whose exact
value is irrational in general; the only consumer of the normal is the
projection-axis choice, and `chooseProjection_smul` proves that choice
invariant under multiplication by any positive scalar, so the model is
faithful for everything derived from the normal. -/

/-- The Newell accumulation over all cyclically adjacent vertex pairs
(unnormalized; see the section comment). -/
def computeNormalNewell (pts : List V3) : V3 :=
  let pairs := pts.zip (pts.rotate 1)
  (pairs.foldl (fun a p => a + (p.1.2.1 - p.2.2.1) * (p.1.2.2 + p.2.2.2)) 0,
   pairs.foldl (fun a p => a + (p.1.2.2 - p.2.2.2) * (p.1.1 + p.2.1)) 0,
   pairs.foldl (fun a p => a + (p.1.1 - p.2.1) * (p.1.2.1 + p.2.2.1)) 0)

/-- Which coordinate axis is dropped for the 2D projection: `xy` drops z,
`yz` drops x, `xz` drops y. -/
inductive Projection where
  | xy | yz | xz
deriving DecidableEq

/-- The projection-plane choice of `triangulateEarClip`: `yz` when `|nx|` is
strictly largest, `xz` when `|ny|` is strictly largest, else the default `xy`. -/
def chooseProjection (n : V3) : Projection :=
  let ax := |n.1|
  let ay := |n.2.1|
  let az := |n.2.2|
  if ax > ay ∧ ax > az then .yz
  else if ay > az ∧ ay > ax then .xz
  else .xy

/-- The 2D projection of one point for a chosen plane. -/
def projPt (p : Projection) (v : V3) : ℚ × ℚ :=
  match p with
  | .xy => (v.1, v.2.1)
  | .yz => (v.2.1, v.2.2)
  | .xz => (v.1, v.2.2)

/-- Twice the signed area of a 2D triangle (`area2`). -/
def area2 (a b c : ℚ × ℚ) : ℚ :=
  (b.1 - a.1) * (c.2 - a.2) - (b.2 - a.2) * (c.1 - a.1)

/-- The ear test: positive signed area (beyond `1e-8`) and no other active
vertex inside the candidate triangle (barycentric test with `1e-9`/`1e-6`
tolerances). -/
def isEar (v2 : List (ℚ × ℚ)) (V : List ℕ) (i0 i1 i2 : ℕ) : Bool :=
  let a := v2.getD i0 (0, 0)
  let b := v2.getD i1 (0, 0)
  let c := v2.getD i2 (0, 0)
  if area2 a b c ≤ 1 / 100000000 then false
  else
    V.all fun j =>
      if j = i0 ∨ j = i1 ∨ j = i2 then true
      else
        let p := v2.getD j (0, 0)
        let A := area2 a b c
        let A1 := area2 p b c
        let A2 := area2 a p c
        let A3 := area2 a b p
        !(-(1 / 1000000000) ≤ A1 ∧ -(1 / 1000000000) ≤ A2 ∧ -(1 / 1000000000) ≤ A3 ∧
            |A1 + A2 + A3 - A| < 1 / 1000000)

/-- One pass of the clip loop body: the first position `i` in `V` whose
(prev, cur, next) triple is an ear. -/
def findEar (v2 : List (ℚ × ℚ)) (V : List ℕ) : Option ℕ :=
  (List.range V.length).find? fun i =>
    isEar v2 V (V.getD ((i + V.length - 1) % V.length) 0)
      (V.getD i 0)
      (V.getD ((i + 1) % V.length) 0)

theorem findEar_lt {v2 : List (ℚ × ℚ)} {V : List ℕ} {i : ℕ}
    (h : findEar v2 V = some i) : i < V.length := by
  have := List.mem_of_find?_eq_some h
  simpa using List.mem_range.1 this

/-- The clipping loop: while more than three vertices remain and the safety
counter (`fuel`, starting at the source's `10000` cap) allows, clip the first
ear found; stop when none is found. -/
def clipLoop (v2 : List (ℚ × ℚ)) : ℕ → List ℕ → List (ℕ × ℕ × ℕ) →
    List (ℕ × ℕ × ℕ) × List ℕ
  | 0, V, tris => (tris, V)
  | fuel + 1, V, tris =>
    if 3 < V.length then
      match findEar v2 V with
      | some i =>
        let tri := (V.getD ((i + V.length - 1) % V.length) 0, V.getD i 0,
          V.getD ((i + 1) % V.length) 0)
        clipLoop v2 fuel (V.eraseIdx i) (tris ++ [tri])
      | none => (tris, V)
    else (tris, V)

/-- Source `triangulateEarClip`: project along the chosen plane, clip ears (with the
`10000`-iteration safety cap), and close with the final triangle when exactly
three vertices remain.  Returns triples of indices into the input list. -/
def triangulateEarClip (polyPts : List V3) : List (ℕ × ℕ × ℕ) :=
  if polyPts.length < 3 then []
  else
    let projection := chooseProjection (computeNormalNewell polyPts)
    let v2 := polyPts.map (projPt projection)
    let r := clipLoop v2 10000 (List.range polyPts.length) []
    if r.2.length = 3 then
      r.1 ++ [(r.2.getD 0 0, r.2.getD 1 0, r.2.getD 2 0)]
    else r.1

/-! ## `indexed_poly` mesh expansion -/

/-- Source `l[k]` for a signed integer index (JS array lookup). -/
def listAtZ {α : Type} (l : List α) (k : ℤ) : Option α :=
  if 0 ≤ k then l.get? k.toNat else none

/-- Source `vertices[k]`: JS yields `undefined` out of range (only reachable for
malformed vertex indices); the model reads `0` there. -/
def vertAt (vs : List ℚ) (k : ℤ) : ℚ := (listAtZ vs k).getD 0

/-- The 3D points of one face (`poly.map(i => [vertices[i*3], ...])`). -/
def polyPtsOf (vs : List ℚ) (poly : List ℤ) : List V3 :=
  poly.map fun idx => (vertAt vs (3 * idx), vertAt vs (3 * idx + 1), vertAt vs (3 * idx + 2))

/-- The per-vertex normal: per-face index list into `normallist` if that
entry exists, else a direct per-global-vertex lookup, else zeros. -/
def pickNormal (nl : List V3) (nidx : List (List ℤ)) (faceIdx localIdx : ℕ)
    (vertIdx : ℤ) : V3 :=
  match (nidx.get? faceIdx).bind fun g => g.get? localIdx with
  | some ni =>
    match listAtZ nl ni with
    | some n => n
    | none => (0, 0, 0)
  | none =>
    match listAtZ nl vertIdx with
    | some n => n
    | none => (0, 0, 0)

/-- The per-vertex texture coordinate, with the same two-level fallback
(`texturelist[ti] || [0, 0]` on the indexed path). -/
def pickTex (tl : List (ℚ × ℚ)) (tidx : List (List ℤ)) (faceIdx localIdx : ℕ)
    (vertIdx : ℤ) : ℚ × ℚ :=
  match (tidx.get? faceIdx).bind fun g => g.get? localIdx with
  | some ti => (listAtZ tl ti).getD (0, 0)
  | none =>
    match listAtZ tl vertIdx with
    | some t => t
    | none => (0, 0)

/-- The growing expanded-mesh arrays. -/
structure MeshAcc where
  pos : List ℚ := []
  nor : List ℚ := []
  tex : List ℚ := []
deriving DecidableEq

/-- Emit one triangle corner: position, normal and texcoord pushes of the
inner `for (k = 0; k < 3; k++)` body. -/
def emitVertex (vs : List ℚ) (nl : List V3) (tl : List (ℚ × ℚ))
    (nidx tidx : List (List ℤ)) (faceIdx : ℕ) (poly : List ℤ) (localIdx : ℕ)
    (acc : MeshAcc) : MeshAcc :=
  let vertIdx := poly.getD localIdx 0
  let n := pickNormal nl nidx faceIdx localIdx vertIdx
  let t := pickTex tl tidx faceIdx localIdx vertIdx
  { pos := acc.pos ++ [vertAt vs (3 * vertIdx), vertAt vs (3 * vertIdx + 1),
      vertAt vs (3 * vertIdx + 2)]
    nor := acc.nor ++ [n.1, n.2.1, n.2.2]
    tex := acc.tex ++ [t.1, t.2] }

/-- Expand one face: skip degenerate faces, triangulate, emit each corner. -/
def buildFace (vs : List ℚ) (nl : List V3) (tl : List (ℚ × ℚ))
    (nidx tidx : List (List ℤ)) (faceIdx : ℕ) (poly : List ℤ)
    (acc : MeshAcc) : MeshAcc :=
  if poly.length < 3 then acc
  else
    (triangulateEarClip (polyPtsOf vs poly)).foldl
      (fun a tri =>
        emitVertex vs nl tl nidx tidx faceIdx poly tri.2.2
          (emitVertex vs nl tl nidx tidx faceIdx poly tri.2.1
            (emitVertex vs nl tl nidx tidx faceIdx poly tri.1 a)))
      acc

/-- Expand every face of the `polylist`. -/
def buildMesh (vs : List ℚ) (nl : List V3) (tl : List (ℚ × ℚ))
    (nidx tidx : List (List ℤ)) (polys : List (List ℤ)) : MeshAcc :=
  polys.enum.foldl (fun acc fp => buildFace vs nl tl nidx tidx fp.1 fp.2 acc) {}

/-- The view construction and attachment at the end of `parseIndexedPoly`:
normals/texcoords are attached only when some emitted component is nonzero,
the material only when `material_index` is present and in range (no
index-0 fallback here), the texture likewise (and JS `&&` drops an empty
texture string, which is falsy). -/
def indexedPolyView (vs : List ℚ) (nl : List V3) (tl : List (ℚ × ℚ))
    (nidx tidx : List (List ℤ)) (polys : List (List ℤ)) (mi ti vi : Option ℚ)
    (obj : Obj) : Obj :=
  let m := buildMesh vs nl tl nidx tidx polys
  let view : View :=
    { geom := .mesh m.pos (List.range (m.pos.length / 3))
        (if m.nor.any (fun v => v != 0) then some m.nor else none)
        (if m.tex.any (fun v => v != 0) then some m.tex else none)
      material_index := mi
      texture_index := ti
      view_index := vi
      material := mi.bind fun q => jsIndex obj.materials q
      texture :=
        match ti.bind fun q => jsIndex obj.textures q with
        | some s => if s = "" then none else some s
        | none => none }
  pushView obj view

/-! ## `parseIndexedPoly` token loops -/

/-- The list keywords recognised inside an `indexed_poly` body. -/
def ipKeywords : List String :=
  ["vertexlist", "normallist", "texturelist", "polylist", "normalindexlist",
   "textureindexlist", "materiallist", "colourlist"]

/-- The pre-list skip: numbers and non-list-keyword identifiers after the
primitive type are consumed. -/
def ipSkipPre (tk : List Tok) : ℕ → ℕ → ℕ
  | 0, i => i
  | fuel + 1, i =>
    match peekT tk i with
    | .num _ => ipSkipPre tk fuel (i + 1)
    | .ident w => if jsToLower w ∈ ipKeywords then i else ipSkipPre tk fuel (i + 1)
    | _ => i

/-- The `vertexlist` body: number triples with optional commas, other tokens
skipped, until `}` or end of stream. -/
def vertexListLoop (tk : List Tok) : ℕ → ℕ → List ℚ → Except String (List ℚ) × ℕ
  | 0, i, acc => (.ok acc, i)
  | fuel + 1, i, acc =>
    if peekT tk i = .chr '}' ∨ peekT tk i = .eof then (.ok acc, i)
    else
      match peekT tk i with
      | .num x =>
        match expectNum tk (i + 1) with
        | (.error e, i2) => (.error e, i2)
        | (.ok y, i2) =>
          match expectNum tk i2 with
          | (.error e, i3) => (.error e, i3)
          | (.ok z, i3) => vertexListLoop tk fuel (acceptChr ',' tk i3) (acc ++ [x, y, z])
      | _ => vertexListLoop tk fuel (i + 1) acc

/-- The `normallist` body: `[nx, ny, nz]` triples. -/
def normalListLoop (tk : List Tok) : ℕ → ℕ → List V3 → Except String (List V3) × ℕ
  | 0, i, acc => (.ok acc, i)
  | fuel + 1, i, acc =>
    if peekT tk i = .chr '}' ∨ peekT tk i = .eof then (.ok acc, i)
    else
      match peekT tk i with
      | .num x =>
        match expectNum tk (i + 1) with
        | (.error e, i2) => (.error e, i2)
        | (.ok y, i2) =>
          match expectNum tk i2 with
          | (.error e, i3) => (.error e, i3)
          | (.ok z, i3) => normalListLoop tk fuel (acceptChr ',' tk i3) (acc ++ [(x, y, z)])
      | _ => normalListLoop tk fuel (i + 1) acc

/-- The `texturelist` body: `[u, v]` pairs. -/
def textureListLoop (tk : List Tok) : ℕ → ℕ → List (ℚ × ℚ) →
    Except String (List (ℚ × ℚ)) × ℕ
  | 0, i, acc => (.ok acc, i)
  | fuel + 1, i, acc =>
    if peekT tk i = .chr '}' ∨ peekT tk i = .eof then (.ok acc, i)
    else
      match peekT tk i with
      | .num u =>
        match expectNum tk (i + 1) with
        | (.error e, i2) => (.error e, i2)
        | (.ok v, i2) => textureListLoop tk fuel (acceptChr ',' tk i2) (acc ++ [(u, v)])
      | _ => textureListLoop tk fuel (i + 1) acc

/-- The `polylist` / `normalindexlist` / `textureindexlist` body: `| 0`-truncated
integers grouped by `-1` sentinels, with optional commas; non-number tokens are
consumed and ignored.  Returns the open group and the closed groups. -/
def intGroupsLoop (tk : List Tok) : ℕ → ℕ → List ℤ → List (List ℤ) →
    (List ℤ × List (List ℤ)) × ℕ
  | 0, i, cur, acc => ((cur, acc), i)
  | fuel + 1, i, cur, acc =>
    if peekT tk i = .chr '}' ∨ peekT tk i = .eof then ((cur, acc), i)
    else
      match peekT tk i with
      | .num q =>
        let v := jsToInt32 q
        let i2 := acceptChr ',' tk (i + 1)
        if v = -1 then
          if cur.isEmpty then intGroupsLoop tk fuel i2 cur acc
          else intGroupsLoop tk fuel i2 [] (acc ++ [cur])
        else intGroupsLoop tk fuel i2 (cur ++ [v]) acc
      | _ => intGroupsLoop tk fuel (i + 1) cur acc

/-- Run an int-group list body between its braces: `expect('{')`, the loop, the
final flush of a nonempty open group, `expect('}')`. -/
def intGroupsBlock (tk : List Tok) (fuel i : ℕ) (acc : List (List ℤ)) :
    Except String (List (List ℤ)) × ℕ :=
  match expectChr '{' tk i with
  | (.error e, i1) => (.error e, i1)
  | (.ok _, i1) =>
    match intGroupsLoop tk fuel i1 [] [] with
    | ((cur, groups), i2) =>
      let groups2 := if cur.isEmpty then groups else groups ++ [cur]
      match expectChr '}' tk i2 with
      | (.error e, i3) => (.error e, i3)
      | (.ok _, i3) => (.ok (acc ++ groups2), i3)

/-- The accumulated `indexed_poly` lists. -/
structure IPAcc where
  vs : List ℚ := []
  nl : List V3 := []
  tl : List (ℚ × ℚ) := []
  nidx : List (List ℤ) := []
  tidx : List (List ℤ) := []
  polys : List (List ℤ) := []
deriving DecidableEq

/-- The main `indexed_poly` body loop, dispatching on the lowercased list
keyword; unknown identifiers skip a block or a value. -/
def ipLoop (tk : List Tok) : ℕ → ℕ → IPAcc → Except String IPAcc × ℕ
  | 0, i, acc => (.ok acc, i)
  | fuel + 1, i, acc =>
    if peekT tk i = .chr '}' ∨ peekT tk i = .eof then (.ok acc, i)
    else
      match peekT tk i with
      | .ident w =>
        let id := jsToLower w
        let i1 := i + 1
        if id = "vertexlist" then
          match expectChr '{' tk i1 with
          | (.error e, i2) => (.error e, i2)
          | (.ok _, i2) =>
            match vertexListLoop tk fuel i2 acc.vs with
            | (.error e, i3) => (.error e, i3)
            | (.ok vs2, i3) =>
              match expectChr '}' tk i3 with
              | (.error e, i4) => (.error e, i4)
              | (.ok _, i4) => ipLoop tk fuel i4 { acc with vs := vs2 }
        else if id = "polylist" then
          match intGroupsBlock tk fuel i1 acc.polys with
          | (.error e, i2) => (.error e, i2)
          | (.ok ps, i2) => ipLoop tk fuel i2 { acc with polys := ps }
        else if id = "normallist" then
          match expectChr '{' tk i1 with
          | (.error e, i2) => (.error e, i2)
          | (.ok _, i2) =>
            match normalListLoop tk fuel i2 acc.nl with
            | (.error e, i3) => (.error e, i3)
            | (.ok nl2, i3) =>
              match expectChr '}' tk i3 with
              | (.error e, i4) => (.error e, i4)
              | (.ok _, i4) => ipLoop tk fuel i4 { acc with nl := nl2 }
        else if id = "texturelist" then
          match expectChr '{' tk i1 with
          | (.error e, i2) => (.error e, i2)
          | (.ok _, i2) =>
            match textureListLoop tk fuel i2 acc.tl with
            | (.error e, i3) => (.error e, i3)
            | (.ok tl2, i3) =>
              match expectChr '}' tk i3 with
              | (.error e, i4) => (.error e, i4)
              | (.ok _, i4) => ipLoop tk fuel i4 { acc with tl := tl2 }
        else if id = "normalindexlist" then
          match intGroupsBlock tk fuel i1 acc.nidx with
          | (.error e, i2) => (.error e, i2)
          | (.ok gs, i2) => ipLoop tk fuel i2 { acc with nidx := gs }
        else if id = "textureindexlist" then
          match intGroupsBlock tk fuel i1 acc.tidx with
          | (.error e, i2) => (.error e, i2)
          | (.ok gs, i2) => ipLoop tk fuel i2 { acc with tidx := gs }
        else
          if peekT tk i1 = .chr '{' then ipLoop tk fuel (skipBlock tk i1) acc
          else ipLoop tk fuel (skipValue tk i1) acc
      | _ => ipLoop tk fuel (i + 1) acc

/-- Source `parseIndexedPoly`: optional primitive-type identifier, the pre-list
skip, the body loop, then the expanded mesh view (the closing `}` of the
enclosing view block is left unconsumed). -/
def parseIndexedPoly (tk : List Tok) (fuel i : ℕ) (obj : Obj) (mi ti vi : Option ℚ) :
    Except String Unit × Obj × ℕ :=
  let i1 := match peekT tk i with
    | .ident _ => i + 1
    | _ => i
  let i2 := ipSkipPre tk fuel i1
  match ipLoop tk fuel i2 {} with
  | (.error e, i3) => (.error e, obj, i3)
  | (.ok acc, i3) =>
    (.ok (), indexedPolyView acc.vs acc.nl acc.tl acc.nidx acc.tidx acc.polys mi ti vi obj, i3)

/-! ## View rule -/

/-- The primitive keywords the view wrapper loop stops at. -/
def primitiveKeywords : List String :=
  ["RBOX", "CYL", "SPHERE", "indexed_poly", "N_LINE", "LINE", "QUAD_GRID", "N_POLY"]

/-- The wrapper-property loop of `parseView`: `name`, `material_index`,
`texture_index`, `texture_mode` before the block; stops at a primitive
keyword or a non-identifier; unknown identifiers are consumed with an
optional string/number value. -/
def viewWrapLoop (tk : List Tok) : ℕ → ℕ → Option ℚ → Option ℚ →
    Except String (Option ℚ × Option ℚ) × ℕ
  | 0, i, mi, ti => (.ok (mi, ti), i)
  | fuel + 1, i, mi, ti =>
    match peekT tk i with
    | .ident w =>
      if w = "name" then
        let i1 := i + 1
        let i2 := match peekT tk i1 with
          | .str _ => i1 + 1
          | _ => i1
        viewWrapLoop tk fuel i2 mi ti
      else if w = "material_index" then
        match expectNum tk (i + 1) with
        | (.error e, i2) => (.error e, i2)
        | (.ok n, i2) => viewWrapLoop tk fuel i2 (some n) ti
      else if w = "texture_index" then
        match expectNum tk (i + 1) with
        | (.error e, i2) => (.error e, i2)
        | (.ok n, i2) => viewWrapLoop tk fuel i2 mi (some n)
      else if w = "texture_mode" then viewWrapLoop tk fuel (i + 2) mi ti
      else if w ∈ primitiveKeywords then (.ok (mi, ti), i)
      else
        let i1 := i + 1
        let i2 := match peekT tk i1 with
          | .str _ => i1 + 1
          | .num _ => i1 + 1
          | _ => i1
        viewWrapLoop tk fuel i2 mi ti
    | _ => (.ok (mi, ti), i)

/-- The brace-delimited body loop of `parseView`.  `RBOX` errors propagate
(uncaught in the source); every other primitive's error is caught with a
warning and the loop resumes at the primitive's final cursor. -/
def viewBlockLoop (tk : List Tok) : ℕ → ℕ → Obj → Option ℚ → Option ℚ → Option ℚ →
    Except String Unit × Obj × ℕ
  | 0, i, obj, _, _, _ => (.ok (), obj, i)
  | fuel + 1, i, obj, mi, ti, vi =>
    if peekT tk i = .chr '}' ∨ peekT tk i = .eof then (.ok (), obj, i)
    else
      match peekT tk i with
      | .ident w =>
        let i1 := i + 1
        if w = "name" then
          let i2 := match peekT tk i1 with
            | .str _ => i1 + 1
            | _ => i1
          viewBlockLoop tk fuel i2 obj mi ti vi
        else if w = "material_index" then
          match expectNum tk i1 with
          | (.error e, i2) => (.error e, obj, i2)
          | (.ok n, i2) => viewBlockLoop tk fuel i2 obj (some n) ti vi
        else if w = "texture_index" then
          match expectNum tk i1 with
          | (.error e, i2) => (.error e, obj, i2)
          | (.ok n, i2) => viewBlockLoop tk fuel i2 obj mi (some n) vi
        else if w = "RBOX" then
          match parseRBox tk i1 obj mi vi with
          | (.error e, obj2, i2) => (.error e, obj2, i2)
          | (.ok _, obj2, i2) => viewBlockLoop tk fuel i2 obj2 mi ti vi
        else if w = "CYL" then
          match parseCyl tk fuel i1 obj mi vi with
          | (_, obj2, i2) => viewBlockLoop tk fuel i2 obj2 mi ti vi
        else if w = "indexed_poly" then
          match parseIndexedPoly tk fuel i1 obj mi ti vi with
          | (_, obj2, i2) => viewBlockLoop tk fuel i2 obj2 mi ti vi
        else if w = "N_LINE" ∨ w = "LINE" then
          match parseLinePrimitive tk fuel i1 w obj mi ti vi with
          | (_, obj2, i2) => viewBlockLoop tk fuel i2 obj2 mi ti vi
        else if w = "SPHERE" then
          match parseSphereInView tk i1 obj mi ti vi with
          | (_, obj2, i2) => viewBlockLoop tk fuel i2 obj2 mi ti vi
        else if w = "QUAD_GRID" then
          match parseQuadGrid tk i1 obj mi ti vi with
          | (_, obj2, i2) => viewBlockLoop tk fuel i2 obj2 mi ti vi
        else if w = "N_POLY" then
          match parseNPoly tk i1 obj mi ti vi with
          | (_, obj2, i2) => viewBlockLoop tk fuel i2 obj2 mi ti vi
        else viewBlockLoop tk fuel (acceptChr ';' tk (skipValue tk i1)) obj mi ti vi
      | .chr c =>
        if c = '{' then viewBlockLoop tk fuel (skipBlock tk i) obj mi ti vi
        else viewBlockLoop tk fuel (i + 1) obj mi ti vi
      | _ => viewBlockLoop tk fuel (i + 1) obj mi ti vi

/-- Source `parseView` (the `view` keyword already consumed): optional ordinal,
wrapper properties, then either a brace-delimited body or a single-line
primitive (`RBOX`, `CYL`, `QUAD_GRID`, `N_POLY`; anything else skips one
value). -/
def parseView (tk : List Tok) (fuel i : ℕ) (obj : Obj) : Except String Unit × Obj × ℕ :=
  let v0 : Option ℚ × ℕ :=
    match peekT tk i with
    | .num q => (some q, i + 1)
    | _ => (none, i)
  match viewWrapLoop tk fuel v0.2 none none with
  | (.error e, i1) => (.error e, obj, i1)
  | (.ok mt, i1) =>
    if peekT tk i1 = .chr '{' then
      match viewBlockLoop tk fuel (i1 + 1) obj mt.1 mt.2 v0.1 with
      | (.error e, obj2, i2) => (.error e, obj2, i2)
      | (.ok _, obj2, i2) => (.ok (), obj2, acceptChr '}' tk i2)
    else
      match peekT tk i1 with
      | .ident w =>
        if w = "RBOX" then parseRBox tk (i1 + 1) obj mt.1 v0.1
        else if w = "CYL" then
          match parseCyl tk fuel (i1 + 1) obj mt.1 v0.1 with
          | (_, obj2, i2) => (.ok (), obj2, i2)
        else if w = "QUAD_GRID" then
          match parseQuadGrid tk (i1 + 1) obj mt.1 mt.2 v0.1 with
          | (_, obj2, i2) => (.ok (), obj2, i2)
        else if w = "N_POLY" then
          match parseNPoly tk (i1 + 1) obj mt.1 mt.2 v0.1 with
          | (_, obj2, i2) => (.ok (), obj2, i2)
        else (.ok (), obj, skipValue tk i1)
      | _ => (.ok (), obj, i1)

/-! ## Object rule -/

/-- Set one property of a material block record. -/
def setMatProp (m : Material) (prop : String) (v : V3) : Material :=
  if prop = "ambient" then { m with ambient := some v }
  else if prop = "diffuse" then { m with diffuse := some v }
  else if prop = "emission" then { m with emission := some v }
  else if prop = "specular" then { m with specular := some v }
  else m

/-- The `material { ... }` property loop: the four color properties take
three numbers, `spec_power`/`transparency` one, unknown properties are
value-skipped; non-identifier tokens are value-skipped. -/
def matBlockLoop (tk : List Tok) : ℕ → ℕ → Material → Except String Material × ℕ
  | 0, i, mat => (.ok mat, i)
  | fuel + 1, i, mat =>
    if peekT tk i = .chr '}' ∨ peekT tk i = .eof then (.ok mat, i)
    else
      match peekT tk i with
      | .ident w =>
        let prop := jsToLower w
        let i1 := i + 1
        if prop = "ambient" ∨ prop = "diffuse" ∨ prop = "emission" ∨ prop = "specular" then
          match expectNum tk i1 with
          | (.error e, i2) => (.error e, i2)
          | (.ok r, i2) =>
            match expectNum tk i2 with
            | (.error e, i3) => (.error e, i3)
            | (.ok g, i3) =>
              match expectNum tk i3 with
              | (.error e, i4) => (.error e, i4)
              | (.ok b, i4) => matBlockLoop tk fuel i4 (setMatProp mat prop (r, g, b))
        else if prop = "spec_power" then
          match expectNum tk i1 with
          | (.error e, i2) => (.error e, i2)
          | (.ok n, i2) => matBlockLoop tk fuel i2 { mat with spec_power := some n }
        else if prop = "transparency" then
          match expectNum tk i1 with
          | (.error e, i2) => (.error e, i2)
          | (.ok n, i2) => matBlockLoop tk fuel i2 { mat with transparency := some n }
        else matBlockLoop tk fuel (skipValue tk i1) mat
      | _ => matBlockLoop tk fuel (skipValue tk i) mat

/-- The three accepted `material` forms: a quoted name (default colors), the
`rgb r g b` shorthand, or a property block; an unexpected format warns,
skips one value, and pushes nothing (`none`). -/
def parseMaterial (tk : List Tok) (fuel i : ℕ) : Except String (Option Material) × ℕ :=
  match peekT tk i with
  | .str nm => (.ok (some (baseMaterial (some nm))), i + 1)
  | .ident w =>
    if jsToLower w = "rgb" then
      match expectNum tk (i + 1) with
      | (.error e, i2) => (.error e, i2)
      | (.ok r, i2) =>
        match expectNum tk i2 with
        | (.error e, i3) => (.error e, i3)
        | (.ok g, i3) =>
          match expectNum tk i3 with
          | (.error e, i4) => (.error e, i4)
          | (.ok b, i4) => (.ok (some (rgbMaterial r g b)), i4)
    else (.ok none, skipValue tk i)
  | .chr c =>
    if c = '{' then
      match matBlockLoop tk fuel (i + 1) (baseMaterial none) with
      | (.error e, i2) => (.error e, i2)
      | (.ok mat, i2) => (.ok (some mat), acceptChr '}' tk i2)
    else (.ok none, skipValue tk i)
  | _ => (.ok none, skipValue tk i)

/-- The unknown-identifier handling inside an object body: skip a block if
one opens, else skip one value and an optional `;`. -/
def objUnknown (tk : List Tok) (i : ℕ) : ℕ :=
  if peekT tk i = .chr '{' then skipBlock tk i
  else acceptChr ';' tk (skipValue tk i)

mutual

/-- The body loop of `parseObject`, dispatching on the lowercased keyword.
`view` and nested `object` errors are caught here (warn + `skipBlock`); a
failed nested object contributes nothing to `children`. -/
def objLoop (tk : List Tok) : ℕ → ℕ → Obj → Except String Obj × ℕ
  | 0, i, obj => (.ok obj, i)
  | fuel + 1, i, obj =>
    if peekT tk i = .chr '}' ∨ peekT tk i = .eof then (.ok obj, i)
    else
      match peekT tk i with
      | .ident w =>
        let id := jsToLower w
        let i1 := i + 1
        if id = "id" then
          match expectNum tk i1 with
          | (.error e, i2) => (.error e, i2)
          | (.ok n, i2) => objLoop tk fuel i2 (obj.mapData fun d => { d with id := some n })
        else if id = "name" then
          match peekT tk i1 with
          | .str s =>
            objLoop tk fuel (i1 + 1) (obj.mapData fun d => { d with name := some s })
          | _ => objLoop tk fuel (objUnknown tk i1) obj
        else if id = "material" then
          match parseMaterial tk fuel i1 with
          | (.error e, i2) => (.error e, i2)
          | (.ok (some m), i2) =>
            objLoop tk fuel i2 (obj.mapData fun d => { d with materials := d.materials ++ [m] })
          | (.ok none, i2) => objLoop tk fuel i2 obj
        else if id = "texture" then
          match peekT tk i1 with
          | .str s =>
            objLoop tk fuel (i1 + 1) (obj.mapData fun d => { d with textures := d.textures ++ [s] })
          | _ => objLoop tk fuel (skipValue tk i1) obj
        else if id = "translation" then
          match parseVector tk i1 with
          | (.error e, i2) => (.error e, i2)
          | (.ok v, i2) =>
            objLoop tk fuel i2
              (obj.mapData fun d => { d with transforms := d.transforms ++ [.translation v] })
        else if id = "eulerxyz" then
          match parseVector tk i1 with
          | (.error e, i2) => (.error e, i2)
          | (.ok v, i2) =>
            objLoop tk fuel i2
              (obj.mapData fun d => { d with transforms := d.transforms ++ [.eulerxyz v] })
        else if id = "fixedxyz" then
          match parseVector tk i1 with
          | (.error e, i2) => (.error e, i2)
          | (.ok v, i2) =>
            objLoop tk fuel i2
              (obj.mapData fun d => { d with transforms := d.transforms ++ [.fixedxyz v] })
        else if id = "rotation" then
          match parseVector tk i1 with
          | (.error e, i2) => (.error e, i2)
          | (.ok v1, i2) =>
            match parseVector tk i2 with
            | (.error e, i3) => (.error e, i3)
            | (.ok v2, i3) =>
              match parseVector tk i3 with
              | (.error e, i4) => (.error e, i4)
              | (.ok v3, i4) =>
                objLoop tk fuel i4
                  (obj.mapData fun d =>
                    { d with transforms := d.transforms ++ [.rotation v1 v2 v3] })
        else if id = "view" then
          match parseView tk fuel i1 obj with
          | (.error _, obj2, i2) => objLoop tk fuel (skipBlock tk i2) obj2
          | (.ok _, obj2, i2) => objLoop tk fuel i2 obj2
        else if id = "object" then
          match parseObject tk fuel i1 with
          | (.error _, i2) => objLoop tk fuel (skipBlock tk i2) obj
          | (.ok child, i2) => objLoop tk fuel i2 (obj.pushChild child)
        else objLoop tk fuel (objUnknown tk i1) obj
      | .chr c =>
        if c = '{' then objLoop tk fuel (skipBlock tk i) obj
        else objLoop tk fuel (i + 1) obj
      | _ => objLoop tk fuel (i + 1) obj

/-- Source `parseObject` (the `object` keyword already consumed): optional string,
`expect('{')`, the body loop, `accept('}')`.  Returns the built object; the
source appends it to `scene.objects` only for a top-level invocation, which
the model performs at the call site in `parseTopLevel` (nested invocations
append to the parent's `children` at their call site, as the source does). -/
def parseObject (tk : List Tok) : ℕ → ℕ → Except String Obj × ℕ
  | 0, i => (.error "out of fuel", i)
  | fuel + 1, i =>
    let i0 := match peekT tk i with
      | .str _ => i + 1
      | _ => i
    match expectChr '{' tk i0 with
    | (.error e, i1) => (.error e, i1)
    | (.ok _, i1) =>
      match objLoop tk fuel i1 emptyObj with
      | (.error e, i2) => (.error e, i2)
      | (.ok obj, i2) => (.ok obj, acceptChr '}' tk i2)

end

/-! ## World rule and top level -/

/-- The `world` body loop: `background` takes three numbers, `start` a
vector; unknown properties skip a block or one value; non-identifier tokens
are consumed. -/
def worldLoop (tk : List Tok) : ℕ → ℕ → World → Except String Unit × World × ℕ
  | 0, i, w => (.ok (), w, i)
  | fuel + 1, i, w =>
    if peekT tk i = .chr '}' ∨ peekT tk i = .eof then (.ok (), w, i)
    else
      match peekT tk i with
      | .ident key =>
        let i1 := i + 1
        if key = "background" then
          match expectNum tk i1 with
          | (.error e, i2) => (.error e, w, i2)
          | (.ok r, i2) =>
            match expectNum tk i2 with
            | (.error e, i3) => (.error e, w, i3)
            | (.ok g, i3) =>
              match expectNum tk i3 with
              | (.error e, i4) => (.error e, w, i4)
              | (.ok b, i4) => worldLoop tk fuel i4 { w with background := (r, g, b) }
        else if key = "start" then
          match parseVector tk i1 with
          | (.error e, i2) => (.error e, w, i2)
          | (.ok v, i2) => worldLoop tk fuel i2 { w with start := v }
        else
          if peekT tk i1 = .chr '{' then worldLoop tk fuel (skipBlock tk i1) w
          else worldLoop tk fuel (skipValue tk i1) w
      | _ => worldLoop tk fuel (i + 1) w

/-- Source `parseWorld` (the `world` keyword already consumed): optional name
string, `expect('{')`, the property loop, `accept('}')`.  World fields set
before an error persist. -/
def parseWorld (tk : List Tok) (fuel i : ℕ) (w : World) : Except String Unit × World × ℕ :=
  let i0 := match peekT tk i with
    | .str _ => i + 1
    | _ => i
  match expectChr '{' tk i0 with
  | (.error e, i1) => (.error e, w, i1)
  | (.ok _, i1) =>
    match worldLoop tk fuel i1 w with
    | (.error e, w2, i2) => (.error e, w2, i2)
    | (.ok _, w2, i2) => (.ok (), w2, acceptChr '}' tk i2)

/-- The unknown-top-level-identifier skip: consume until `;`, `}` or end of
stream. -/
def topSkipToSemi (tk : List Tok) : ℕ → ℕ → ℕ
  | 0, i => i
  | fuel + 1, i =>
    match peekT tk i with
    | .chr c => if c = ';' ∨ c = '}' then i else topSkipToSemi tk fuel (i + 1)
    | .eof => i
    | _ => topSkipToSemi tk fuel (i + 1)

/-- Source `parseTopLevel`: dispatch on lowercased top-level keywords until end of
stream.  Every error of `parseWorld`/`parseObject` is caught here (warn +
`skipBlock`), so the function's type carries no `Except`: no exception can
propagate to `parseVrIntoScene`.  World mutations made before a world error
persist; a failed top-level object is not appended. -/
def parseTopLevel (tk : List Tok) : ℕ → ℕ → Scene → Scene × ℕ
  | 0, i, scene => (scene, i)
  | fuel + 1, i, scene =>
    match peekT tk i with
    | .eof => (scene, i)
    | .ident kw =>
      let i1 := i + 1
      if jsToLower kw = "world" then
        match parseWorld tk fuel i1 scene.world with
        | (.error _, w2, i2) =>
          parseTopLevel tk fuel (skipBlock tk i2) { scene with world := w2 }
        | (.ok _, w2, i2) => parseTopLevel tk fuel i2 { scene with world := w2 }
      else if jsToLower kw = "object" then
        match parseObject tk fuel i1 with
        | (.error _, i2) => parseTopLevel tk fuel (skipBlock tk i2) scene
        | (.ok obj, i2) =>
          parseTopLevel tk fuel i2 { scene with objects := scene.objects ++ [obj] }
      else
        if peekT tk i1 = .chr '{' then parseTopLevel tk fuel (skipBlock tk i1) scene
        else parseTopLevel tk fuel (acceptChr ';' tk (topSkipToSemi tk fuel i1)) scene
    | .chr c =>
      if c = '{' then parseTopLevel tk fuel (skipBlock tk i) scene
      else parseTopLevel tk fuel (i + 1) scene
    | _ => parseTopLevel tk fuel (i + 1) scene

/-- The post-parse default-material pass over the top-level objects: any
object with an empty material sequence gets the single `GRAY` default. -/
def ensureDefaultMaterials (s : Scene) : Scene :=
  { s with
    objects := s.objects.map fun o =>
      if o.materials.isEmpty then o.mapData fun d => { d with materials := [grayMaterial] }
      else o }

/-- Source `parseVrIntoScene`: tokenize, run the top-level rule, post-process, and
return the scene.  The source wraps the parse in `try`/`catch`, but
`parseTopLevel` already catches every grammar-rule error internally (its type
above carries no `Except`), so the catch block cannot fire and the scene —
with everything parsed before any failure — always reaches the post-pass and
the caller. -/
def parseVrIntoScene (fuel : ℕ) (theScene : Scene) (text : String) : Scene :=
  ensureDefaultMaterials (parseTopLevel (tokenize text) fuel 0 theScene).1

/-! ## Claim theorems -/

/-- C7: `Box(A,B)` and `Box(B,A)` yield an identical center (the per-axis
midpoint of min and max) and an identical size (the per-axis extent), because
min and max are taken per axis independently — the RBOX builder is symmetric
in its two corner arguments. -/
theorem C7_rbox_order_independent (a b : V3) : rboxCenterSize a b = rboxCenterSize b a := by
  simp [rboxCenterSize, min_comm, max_comm]

/-- C5 counterexample: for the triangle `(0,0,0), (0,0,1), (1,-1,0)` the
Newell normal is proportional to `(1,1,0)`; the tie between `|nx|` and `|ny|`
makes both strict-maximum tests fail, so the default `xy` projection drops
the z axis, whose normal component `0` is strictly smaller than the kept
`|nx|` — refuting "the dropped component's magnitude is always ≥ the kept
components' magnitudes". -/
theorem C5_counterexample :
    chooseProjection (computeNormalNewell [((0:ℚ), (0:ℚ), (0:ℚ)), (0, 0, 1), (1, -1, 0)]) =
      Projection.xy ∧
    |(computeNormalNewell [((0:ℚ), (0:ℚ), (0:ℚ)), (0, 0, 1), (1, -1, 0)]).2.2| <
      |(computeNormalNewell [((0:ℚ), (0:ℚ), (0:ℚ)), (0, 0, 1), (1, -1, 0)]).1| := by
  decide

/-- C5 amended: the x (resp. y) axis is dropped exactly when its normal
component's magnitude is strictly largest; otherwise the default z drop is
used, and in a tie for the maximum between x and y the dropped z component
need not have maximal magnitude.  The choice is invariant under scaling the
normal by any positive factor, so the source's normalization (division by the
positive `hypot` length) cannot change it. -/
theorem C5_amended (n : V3) :
    (chooseProjection n = Projection.yz → |n.2.1| < |n.1| ∧ |n.2.2| < |n.1|) ∧
    (chooseProjection n = Projection.xz → |n.2.2| < |n.2.1| ∧ |n.1| < |n.2.1|) ∧
    (chooseProjection n = Projection.xy →
      ¬(|n.2.1| < |n.1| ∧ |n.2.2| < |n.1|) ∧ ¬(|n.2.2| < |n.2.1| ∧ |n.1| < |n.2.1|)) ∧
    (∀ k : ℚ, 0 < k →
      chooseProjection (k * n.1, k * n.2.1, k * n.2.2) = chooseProjection n) := by
  refine ⟨?_, ?_, ?_, ?_⟩
  · intro h
    rw [chooseProjection] at h
    split at h
    · rename_i hc; exact ⟨hc.1, hc.2⟩
    · split at h <;> simp_all
  · intro h
    rw [chooseProjection] at h
    split at h
    · simp_all
    · split at h
      · rename_i hc; exact ⟨hc.1, hc.2⟩
      · simp_all
  · intro h
    rw [chooseProjection] at h
    split at h
    · simp_all
    · split at h <;> simp_all
  · intro k hk
    rw [chooseProjection, chooseProjection]
    simp only [abs_mul, abs_of_pos hk, gt_iff_lt, mul_lt_mul_left hk]

/-- C5 witness: the amended statement discharged at the normal `(3, 1, 0)`:
`|nx|` strictly largest, so the x axis (projection `yz`) is dropped. -/
theorem C5_amended_witness :
    chooseProjection ((3:ℚ), (1:ℚ), (0:ℚ)) = Projection.yz ∧
      |((3:ℚ), (1:ℚ), (0:ℚ)).2.1| < |((3:ℚ), (1:ℚ), (0:ℚ)).1| ∧
      chooseProjection ((2:ℚ) * 3, (2:ℚ) * 1, (2:ℚ) * 0) =
        chooseProjection ((3:ℚ), (1:ℚ), (0:ℚ)) :=
  ⟨by decide, ((C5_amended ((3:ℚ), (1:ℚ), (0:ℚ))).1 (by decide)).1,
    (C5_amended ((3:ℚ), (1:ℚ), (0:ℚ))).2.2.2 2 (by norm_num)⟩

theorem fanRange_length : ∀ (n s : ℕ),
    (((List.range' s n).flatMap fun k => [0, k, k + 1])).length = 3 * n := by
  intro n
  induction n with
  | zero => intro s; simp
  | succ m ih =>
    intro s
    rw [List.range'_succ]
    simp only [List.flatMap_cons, List.length_append, List.length_cons, List.length_nil, ih]
    omega

theorem fanRange_chunk : ∀ (n s j : ℕ), j < n →
    ((((List.range' s n).flatMap fun k => [0, k, k + 1]).drop (3 * j)).take 3) =
      [0, s + j, s + j + 1] := by
  intro n
  induction n with
  | zero => intro s j h; omega
  | succ m ih =>
    intro s j hj
    rw [List.range'_succ, List.flatMap_cons]
    match j with
    | 0 => simp
    | j + 1 =>
      have h3 : 3 * (j + 1) = 3 * j + 1 + 1 + 1 := by ring
      rw [h3]
      simp only [List.cons_append, List.nil_append, List.drop_succ_cons]
      have h2 := ih (s + 1) j (by omega)
      have e1 : s + 1 + j = s + (j + 1) := by omega
      rw [e1] at h2
      exact h2

theorem fanRange_mem (count k : ℕ) (h : 3 ≤ count) (hk : k < count) :
    k ∈ (List.range' 1 (count - 2)).flatMap fun j => [0, j, j + 1] := by
  rw [List.mem_flatMap]
  by_cases hk0 : k = 0
  · exact ⟨1, List.mem_range'_1.2 (by omega), by simp [hk0]⟩
  · by_cases hk1 : k ≤ count - 2
    · exact ⟨k, List.mem_range'_1.2 (by omega), by simp⟩
    · refine ⟨count - 2, List.mem_range'_1.2 (by omega), ?_⟩
      have : k = count - 2 + 1 := by omega
      simp [this]

/-- C6: for an N_POLY with `count ≥ 3` vertices, the fan triangulation of
`parseNPoly` emits exactly `count - 2` index triples (`3 (count - 2)` flat
entries), the `j`-th of which is `(0, j+1, j+2)` — i.e. `(0, i, i+1)` for
`i = 1 .. count-2` — and every vertex index below `count` appears in some
triple. -/
theorem C6_npoly_fan (count : ℕ) (h : 3 ≤ count) :
    (fanIndices count).length = 3 * (count - 2) ∧
    (∀ j, j < count - 2 → ((fanIndices count).drop (3 * j)).take 3 = [0, j + 1, j + 2]) ∧
    (∀ k, k < count → k ∈ fanIndices count) := by
  refine ⟨fanRange_length (count - 2) 1, ?_, ?_⟩
  · intro j hj
    have hch := fanRange_chunk (count - 2) 1 j hj
    rw [fanIndices]
    have e1 : 1 + j = j + 1 := by omega
    rw [e1] at hch
    exact hch
  · intro k hk
    rw [fanIndices]
    exact fanRange_mem count k h hk

/-- C6 witness: the fan of a pentagon (`count = 5`): 3 triangles, the second
being `(0, 2, 3)`, with vertex 4 covered. -/
theorem C6_npoly_fan_witness :
    (fanIndices 5).length = 3 * (5 - 2) ∧
      ((fanIndices 5).drop 3).take 3 = [0, 2, 3] ∧ (4 : ℕ) ∈ fanIndices 5 :=
  ⟨(C6_npoly_fan 5 (by norm_num)).1,
    (C6_npoly_fan 5 (by norm_num)).2.1 1 (by norm_num),
    (C6_npoly_fan 5 (by norm_num)).2.2 4 (by norm_num)⟩

theorem clipLoop_length : ∀ (fuel : ℕ) (v2 : List (ℚ × ℚ)) (V : List ℕ)
    (tris : List (ℕ × ℕ × ℕ)),
    (clipLoop v2 fuel V tris).1.length + (clipLoop v2 fuel V tris).2.length ≤
      tris.length + V.length := by
  intro fuel
  induction fuel with
  | zero => intro v2 V tris; simp [clipLoop]
  | succ f ih =>
    intro v2 V tris
    rw [clipLoop]
    split
    · rename_i h3
      match hfe : findEar v2 V with
      | some i =>
        dsimp only
        have hlt := findEar_lt hfe
        have hrec := ih v2 (V.eraseIdx i)
          (tris ++ [(V.getD ((i + V.length - 1) % V.length) 0, V.getD i 0,
            V.getD ((i + 1) % V.length) 0)])
        have hel : (V.eraseIdx i).length = V.length - 1 := by
          rw [List.length_eraseIdx]
          simp [hlt]
        rw [hel] at hrec
        simp only [List.length_append, List.length_cons, List.length_nil] at hrec
        omega
      | none => simp
    · simp

/-- C4: the ear-clipping triangulator is a total function of its input — its
recursion is structurally bounded by the source's `10000` safety counter and
the break-on-no-ear exit, exactly as in the source — and the number of
triangles it emits never exceeds the vertex count (each clip removes one
active vertex, plus at most one closing triangle). -/
theorem C4_triangulate_total (pts : List V3) :
    (triangulateEarClip pts).length ≤ pts.length := by
  rw [triangulateEarClip]
  split
  · simp
  · rename_i hn
    dsimp only
    have h := clipLoop_length 10000
      (pts.map (projPt (chooseProjection (computeNormalNewell pts))))
      (List.range pts.length) []
    simp only [List.length_nil, List.length_range, Nat.zero_add] at h
    split
    · rename_i h3
      simp only [List.length_append, List.length_cons, List.length_nil]
      omega
    · omega

theorem tokenizeAux_no_eof : ∀ (fuel : ℕ) (l : List Char), Tok.eof ∉ tokenizeAux fuel l := by
  intro fuel
  induction fuel with
  | zero => intro l; simp [tokenizeAux]
  | succ f ih =>
    intro l
    match l with
    | [] => simp [tokenizeAux]
    | c :: rest =>
      rw [tokenizeAux]
      split
      · exact ih rest
      · split
        · simp [ih rest]
        · split
          · simp [ih (scanString rest).2]
          · match hnum : numMatch (c :: rest) with
            | some p =>
              dsimp only
              simp [ih (List.drop p.2 (c :: rest))]
            | none =>
              dsimp only
              split
              · simp [ih (scanIdent rest).2]
              · simp [ih rest]

/-- C8: `tokenize` is total — the fuelled scan loop is fuel-independent from
the input length up (`tokenizeAux_fuel`), so the definitional fuel is no
restriction — its result carries exactly one `EOF` marker, placed last, and a
character matching no lexical rule (not whitespace, punctuation, string
opener, number, or identifier start) is emitted as a one-character token of
its own kind. -/
theorem C8_tokenize_total (s : String) (c : Char) (rest : List Char) (fuel : ℕ)
    (h1 : jsIsSpace c = false) (h2 : isPunct c = false) (h3 : ¬c = '"')
    (h4 : numMatch (c :: rest) = none) (h5 : isIdentStart c = false) :
    ((tokenize s).count Tok.eof = 1 ∧ (tokenize s).getLast? = some Tok.eof) ∧
    tokenizeAux (fuel + 1) (c :: rest) = .chr c :: tokenizeAux fuel rest ∧
    (∀ extra, tokenizeAux ((c :: rest).length + extra) (c :: rest) =
      tokenizeAux (c :: rest).length (c :: rest)) := by
  refine ⟨⟨?_, ?_⟩, ?_, ?_⟩
  · rw [tokenize]
    rw [List.count_append]
    rw [List.count_eq_zero.2 (by
      intro hmem
      exact tokenizeAux_no_eof _ _ hmem)]
    simp
  · rw [tokenize]
    exact List.getLast?_concat _
  · rw [tokenizeAux]
    simp [h1, h2, h3, h4, h5]
  · intro extra
    exact tokenizeAux_fuel _ _ _ (by simp) (by simp)

/-- C8 witness: the statement discharged at the one-character inputs `"a"`
and `['@']` (`@` matches no lexical rule). -/
theorem C8_tokenize_total_witness :
    (tokenize "a").count Tok.eof = 1 ∧ tokenizeAux 1 ['@'] = [Tok.chr '@'] :=
  ⟨(C8_tokenize_total "a" '@' [] 0 (by decide) (by decide) (by decide) (by decide)
      (by decide)).1.1,
    (C8_tokenize_total "a" '@' [] 0 (by decide) (by decide) (by decide) (by decide)
      (by decide)).2.1⟩

/-- C9: a SPHERE primitive followed by exactly two numbers consumes both but
keeps the default radii: the view pushed is a sphere with
`rx = ry = rz = 0.5`, and the cursor ends just past the two numbers. -/
theorem C9_sphere_two_numbers (tk : List Tok) (i : ℕ) (obj : Obj) (mi ti vi : Option ℚ)
    (a b : ℚ) (ha : peekT tk i = .num a) (hb : peekT tk (i + 1) = .num b)
    (hc : ∀ q, peekT tk (i + 2) ≠ .num q) :
    parseSphereInView tk i obj mi ti vi =
      (.ok (), pushView obj
        { geom := .sphere (1/2) (1/2) (1/2)
          material_index := mi
          texture_index := ti
          view_index := vi
          material := resolveMat obj.materials mi }, i + 2) := by
  rw [parseSphereInView, sphereNums, ha]
  dsimp only
  rw [hb]
  dsimp only
  cases hq : peekT tk (i + 2) with
  | num q => exact absurd hq (hc q)
  | chr c => rfl
  | str s => rfl
  | ident w => rfl
  | eof => rfl

/-- C9 witness: the theorem discharged on the concrete token stream
`SPHERE 2 3 }`. -/
theorem C9_sphere_two_numbers_witness :
    parseSphereInView [Tok.num 2, Tok.num 3, Tok.chr '}', Tok.eof] 0 emptyObj none none none =
      (.ok (), pushView emptyObj
        { geom := .sphere (1/2) (1/2) (1/2)
          material_index := none
          texture_index := none
          view_index := none
          material := resolveMat emptyObj.materials none }, 2) :=
  C9_sphere_two_numbers [Tok.num 2, Tok.num 3, Tok.chr '}', Tok.eof] 0 emptyObj none none none
    2 3 (by decide) (by decide)
    (fun q h => absurd (show Tok.chr '}' = Tok.num q from h) (by simp))

theorem pushView_views (o : Obj) (v : View) : (pushView o v).views = o.views ++ [v] := by
  cases o; rfl

theorem pushView_getLast (o : Obj) (v : View) : (pushView o v).views.getLast? = some v := by
  rw [pushView_views]; exact List.getLast?_concat _

set_option maxRecDepth 8000 in
/-- C3 counterexample: an `indexed_poly` mesh inside an object with one
material and no `material_index` on the view.  The claim requires the
object's material at index 0 to be attached; the code attaches none (the
`indexed_poly` path has no index-0 fallback). -/
theorem C3_counterexample :
    ((parseVrIntoScene 999 emtpyScene "object \x7b material rgb 1 0 0 view \x7b indexed_poly POLYGON vertexlist \x7b 0 0 0, 1 0 0, 0 1 0 \x7d polylist \x7b 0 1 2 -1 \x7d \x7d \x7d").objects.getD 0 emptyObj).views.map View.material = [none] ∧
    ((parseVrIntoScene 999 emtpyScene "object \x7b material rgb 1 0 0 view \x7b indexed_poly POLYGON vertexlist \x7b 0 0 0, 1 0 0, 0 1 0 \x7d polylist \x7b 0 1 2 -1 \x7d \x7d \x7d").objects.getD 0 emptyObj).materials = [rgbMaterial 1 0 0] := by
  constructor
  · decide
  · decide

/-- C3 amended: for views of an object with a non-empty material sequence,
the box, cylinder and sphere rules attach `materials[material_index]` when
the index is a valid position, and fall back to `materials[0]` when the
index is absent or out of range (`resolveMat`); the `indexed_poly` mesh rule
instead attaches a material only when `material_index` is present and valid,
and attaches none otherwise — it has no index-0 fallback. -/
theorem C3_amended :
    (∀ (ms : List Material) (q : ℚ) (m : Material),
      jsIndex ms q = some m → resolveMat ms (some q) = some m) ∧
    (∀ (ms : List Material) (mi : Option ℚ), ¬ms = [] →
      (mi = none ∨ ∃ q, mi = some q ∧ jsIndex ms q = none) → resolveMat ms mi = ms.head?) ∧
    (∀ tk i obj mi vi obj2 i2, parseRBox tk i obj mi vi = (.ok (), obj2, i2) →
      (obj2.views.getLast?).map View.material = some (resolveMat obj.materials mi)) ∧
    (∀ tk fuel i obj mi vi obj2 i2, parseCyl tk fuel i obj mi vi = (.ok (), obj2, i2) →
      (obj2.views.getLast?).map View.material = some (resolveMat obj.materials mi)) ∧
    (∀ tk i obj mi ti vi obj2 i2, parseSphereInView tk i obj mi ti vi = (.ok (), obj2, i2) →
      (obj2.views.getLast?).map View.material = some (resolveMat obj.materials mi)) ∧
    (∀ vs nl tl nidx tidx polys mi ti vi obj,
      (((indexedPolyView vs nl tl nidx tidx polys mi ti vi obj).views.getLast?).map
          View.material) = some (mi.bind fun q => jsIndex obj.materials q)) := by
  refine ⟨?_, ?_, ?_, ?_, ?_, ?_⟩
  · intro ms q m hj
    have hne : ¬ms.isEmpty := by
      rw [jsIndex] at hj
      split at hj
      · intro he
        rw [List.isEmpty_iff] at he
        subst he
        simp at hj
      · simp at hj
    rw [resolveMat.eq_def, if_neg hne]
    dsimp only
    rw [hj]
  · intro ms mi hne hcase
    rw [resolveMat.eq_def, if_neg (by simpa using hne)]
    rcases hcase with hnone | ⟨q, hq, hjn⟩
    · rw [hnone]
    · rw [hq]
      dsimp only
      rw [hjn]
  · intro tk i obj mi vi obj2 i2 h
    rw [parseRBox] at h
    rcases h1 : parseVector tk i with ⟨r1, j1⟩
    rw [h1] at h
    match r1 with
    | .error e => simp at h
    | .ok a =>
      dsimp only at h
      rcases h2 : parseVector tk j1 with ⟨r2, j2⟩
      rw [h2] at h
      match r2 with
      | .error e => simp at h
      | .ok b =>
        dsimp only at h
        simp only [Prod.mk.injEq] at h
        rw [← h.2.1, pushView_getLast]
        rfl
  · intro tk fuel i obj mi vi obj2 i2 h
    rw [parseCyl] at h
    try dsimp only at h
    split at h
    · split at h
      · split at h
        · simp only [Prod.mk.injEq] at h
          rw [← h.2.1, pushView_getLast]
          rfl
        · simp at h
      · simp at h
    · simp at h
  · intro tk i obj mi ti vi obj2 i2 h
    rw [parseSphereInView] at h
    try dsimp only at h
    simp only [Prod.mk.injEq] at h
    rw [← h.2.1, pushView_getLast]
    rfl
  · intro vs nl tl nidx tidx polys mi ti vi obj
    rw [indexedPolyView]
    try dsimp only
    rw [pushView_getLast]
    rfl

theorem listAtZ_nil {α : Type} (k : ℤ) : listAtZ ([] : List α) k = none := by
  rw [listAtZ]
  split <;> simp

theorem pickNormal_allzero {nl : List V3} (h : ∀ n ∈ nl, n = ((0:ℚ), (0:ℚ), (0:ℚ)))
    (nidx : List (List ℤ)) (f l : ℕ) (v : ℤ) :
    pickNormal nl nidx f l v = pickNormal [] nidx f l v := by
  rw [pickNormal, pickNormal]
  cases hg : (nidx.get? f).bind fun g => g.get? l with
  | some ni =>
    dsimp only
    rw [listAtZ_nil]
    cases hn : listAtZ nl ni with
    | some n =>
      have hmem : n ∈ nl := by
        rw [listAtZ] at hn
        split at hn
        · exact List.get?_mem hn
        · simp at hn
      exact h n hmem
    | none => rfl
  | none =>
    dsimp only
    rw [listAtZ_nil]
    cases hn : listAtZ nl v with
    | some n =>
      have hmem : n ∈ nl := by
        rw [listAtZ] at hn
        split at hn
        · exact List.get?_mem hn
        · simp at hn
      exact h n hmem
    | none => rfl

theorem emitVertex_allzero {nl : List V3} (h : ∀ n ∈ nl, n = ((0:ℚ), (0:ℚ), (0:ℚ)))
    (vs : List ℚ) (tl : List (ℚ × ℚ)) (nidx tidx : List (List ℤ)) (f : ℕ)
    (poly : List ℤ) (li : ℕ) (acc : MeshAcc) :
    emitVertex vs nl tl nidx tidx f poly li acc = emitVertex vs [] tl nidx tidx f poly li acc := by
  rw [emitVertex, emitVertex, pickNormal_allzero h]

theorem buildFace_allzero {nl : List V3} (h : ∀ n ∈ nl, n = ((0:ℚ), (0:ℚ), (0:ℚ)))
    (vs : List ℚ) (tl : List (ℚ × ℚ)) (nidx tidx : List (List ℤ)) (f : ℕ)
    (poly : List ℤ) (acc : MeshAcc) :
    buildFace vs nl tl nidx tidx f poly acc = buildFace vs [] tl nidx tidx f poly acc := by
  rw [buildFace, buildFace]
  split
  · rfl
  · apply List.foldl_ext
    intro a tri htri
    simp only [emitVertex_allzero h]

theorem buildMesh_allzero {nl : List V3} (h : ∀ n ∈ nl, n = ((0:ℚ), (0:ℚ), (0:ℚ)))
    (vs : List ℚ) (tl : List (ℚ × ℚ)) (nidx tidx : List (List ℤ)) (polys : List (List ℤ)) :
    buildMesh vs nl tl nidx tidx polys = buildMesh vs [] tl nidx tidx polys := by
  rw [buildMesh, buildMesh]
  apply List.foldl_ext
  intro acc fp hfp
  exact buildFace_allzero h vs tl nidx tidx fp.1 fp.2 acc

/-- C10: the mesh view built by `parseIndexedPoly` carries a `normals` array
exactly when some emitted normal component is nonzero; and an
`indexed_poly` whose referenced normals are all exactly zero produces a view
(indeed an identical updated object) indistinguishable from one that
declared no `normallist` at all. -/
theorem C10_mesh_normals (vs : List ℚ) (nl : List V3) (tl : List (ℚ × ℚ))
    (nidx tidx : List (List ℤ)) (polys : List (List ℤ)) (mi ti vi : Option ℚ) (obj : Obj) :
    ((((indexedPolyView vs nl tl nidx tidx polys mi ti vi obj).views.getLast?).bind
        View.meshNormals) = none ↔
      ∀ x ∈ (buildMesh vs nl tl nidx tidx polys).nor, x = 0) ∧
    ((((indexedPolyView vs nl tl nidx tidx polys mi ti vi obj).views.getLast?).bind
        View.meshTexcoords) = none ↔
      ∀ x ∈ (buildMesh vs nl tl nidx tidx polys).tex, x = 0) ∧
    ((∀ n ∈ nl, n = ((0:ℚ), (0:ℚ), (0:ℚ))) →
      indexedPolyView vs nl tl nidx tidx polys mi ti vi obj =
        indexedPolyView vs [] tl nidx tidx polys mi ti vi obj) := by
  refine ⟨?_, ?_, ?_⟩
  · rw [indexedPolyView]
    try dsimp only
    rw [pushView_getLast]
    rw [Option.some_bind]
    rw [View.meshNormals]
    try dsimp only
    split
    · rename_i hany
      constructor
      · intro hcontra
        exact absurd hcontra (by simp)
      · intro hall
        rw [List.any_eq_true] at hany
        obtain ⟨x, hx, hxne⟩ := hany
        have hx0 := hall x hx
        rw [hx0] at hxne
        simp at hxne
    · rename_i hany
      rw [Bool.not_eq_true, List.any_eq_false] at hany
      refine iff_of_true rfl ?_
      intro x hx
      have := hany x hx
      simpa using this
  · rw [indexedPolyView]
    try dsimp only
    rw [pushView_getLast]
    rw [Option.some_bind]
    rw [View.meshTexcoords]
    try dsimp only
    split
    · rename_i hany
      constructor
      · intro hcontra
        exact absurd hcontra (by simp)
      · intro hall
        rw [List.any_eq_true] at hany
        obtain ⟨x, hx, hxne⟩ := hany
        have hx0 := hall x hx
        rw [hx0] at hxne
        simp at hxne
    · rename_i hany
      rw [Bool.not_eq_true, List.any_eq_false] at hany
      refine iff_of_true rfl ?_
      intro x hx
      have := hany x hx
      simpa using this
  · intro h
    unfold indexedPolyView
    rw [buildMesh_allzero h]

/-- C10 witness: an all-zero `normallist` of one entry yields exactly the
object produced with no `normallist` at all. -/
theorem C10_mesh_normals_witness :
    indexedPolyView [0, 0, 0, 1, 0, 0, 0, 1, 0] [((0:ℚ), (0:ℚ), (0:ℚ))] [] [] [] [[0, 1, 2]]
        none none none emptyObj =
      indexedPolyView [0, 0, 0, 1, 0, 0, 0, 1, 0] [] [] [] [] [[0, 1, 2]]
        none none none emptyObj :=
  (C10_mesh_normals [0, 0, 0, 1, 0, 0, 0, 1, 0] [((0:ℚ), (0:ℚ), (0:ℚ))] [] [] [] [[0, 1, 2]]
      none none none emptyObj).2.2 (by simp)

theorem mapData_children (o : Obj) (f : ObjData → ObjData) :
    (o.mapData f).children = o.children := by
  cases o; rfl

/-- C2: `parseVrIntoScene` never raises to its caller: `parseTopLevel` — whose
Lean type carries no `Except`, because every grammar-rule error is caught at
its dispatch sites — always hands the threaded scene to the post-pass, so the
caller receives the same scene object, partially populated with everything
parsed before any failure.  The last two conjuncts exhibit the catch sites:
a failed top-level `object` is skipped (scene so far retained), and a failed
`world` still contributes the world fields set before the error. -/
theorem C2_parse_never_raises (fuel : ℕ) (scene : Scene) (text : String) :
    parseVrIntoScene fuel scene text =
      ensureDefaultMaterials (parseTopLevel (tokenize text) fuel 0 scene).1 ∧
    (∀ (tk : List Tok) (i : ℕ) (s : Scene) (kw e : String) (i2 : ℕ),
      peekT tk i = .ident kw → jsToLower kw = "object" →
      parseObject tk fuel (i + 1) = (.error e, i2) →
      parseTopLevel tk (fuel + 1) i s = parseTopLevel tk fuel (skipBlock tk i2) s) ∧
    (∀ (tk : List Tok) (i : ℕ) (s : Scene) (kw e : String) (w2 : World) (i2 : ℕ),
      peekT tk i = .ident kw → jsToLower kw = "world" →
      parseWorld tk fuel (i + 1) s.world = (.error e, w2, i2) →
      parseTopLevel tk (fuel + 1) i s =
        parseTopLevel tk fuel (skipBlock tk i2) { s with world := w2 }) := by
  refine ⟨rfl, ?_, ?_⟩
  · intro tk i s kw e i2 hkw hlow hobj
    rw [parseTopLevel, hkw]
    dsimp only
    rw [if_neg (by rw [hlow]; decide), if_pos (by rw [hlow]), hobj]
  · intro tk i s kw e w2 i2 hkw hlow hworld
    rw [parseTopLevel, hkw]
    dsimp only
    rw [if_pos (by rw [hlow]), hworld]

/-- C2 witness: the object-error catch discharged on the concrete stream
`object <eof>`, where the object rule fails on the missing brace. -/
theorem C2_parse_never_raises_witness :
    parseTopLevel [Tok.ident "object", Tok.eof] 6 0 emtpyScene =
      parseTopLevel [Tok.ident "object", Tok.eof] 5
        (skipBlock [Tok.ident "object", Tok.eof] 2) emtpyScene :=
  (C2_parse_never_raises 5 emtpyScene "").2.1 [Tok.ident "object", Tok.eof] 0 emtpyScene
    "object" "Unexpected token: expected punctuation" 2 (by decide) (by decide) (by rfl)

set_option maxRecDepth 8000 in
/-- C1 counterexample: parsing `object { object { } }` leaves the nested
child object with an empty materials sequence — the default-gray post-pass
touches only top-level objects, refuting "every Object anywhere in the scene
graph has a non-empty materials sequence". -/
theorem C1_counterexample :
    (parseVrIntoScene 99 emtpyScene "object \x7b object \x7b \x7d \x7d").objects.length = 1 ∧
    ((parseVrIntoScene 99 emtpyScene "object \x7b object \x7b \x7d \x7d").objects.getD 0
        emptyObj).children.length = 1 ∧
    (((parseVrIntoScene 99 emtpyScene "object \x7b object \x7b \x7d \x7d").objects.getD 0
        emptyObj).children.getD 0 emptyObj).materials = [] :=
  ⟨by decide, by decide, by decide⟩

/-- C1 amended: the default-material guarantee holds for the top-level
objects only: every top-level object of the returned scene has a non-empty
material sequence, obtained by mapping the gray-default injection over the
parsed top-level objects (an object parsed with zero materials ends with
exactly the one `GRAY` material); nested children are not traversed by the
post-pass (their subtrees are returned unchanged), so a nested child may keep
an empty material sequence, as the counterexample shows. -/
theorem C1_amended (fuel : ℕ) (scene : Scene) (text : String) :
    (∀ o ∈ (parseVrIntoScene fuel scene text).objects, ¬o.materials = []) ∧
    (parseVrIntoScene fuel scene text).objects =
      (parseTopLevel (tokenize text) fuel 0 scene).1.objects.map
        (fun o => if o.materials.isEmpty then
            o.mapData fun d => { d with materials := [grayMaterial] }
          else o) ∧
    (parseVrIntoScene fuel scene text).objects.map Obj.children =
      (parseTopLevel (tokenize text) fuel 0 scene).1.objects.map Obj.children := by
  refine ⟨?_, rfl, ?_⟩
  · intro o ho
    rw [parseVrIntoScene, ensureDefaultMaterials] at ho
    dsimp only at ho
    rw [List.mem_map] at ho
    obtain ⟨o0, ho0, rfl⟩ := ho
    split
    · cases o0
      simp [Obj.mapData, Obj.materials, Obj.data]
    · rename_i he
      simpa [List.isEmpty_iff] using he
  · rw [parseVrIntoScene, ensureDefaultMaterials]
    dsimp only
    rw [List.map_map]
    apply List.map_congr_left
    intro o _
    simp only [Function.comp]
    split
    · exact mapData_children o _
    · rfl

set_option maxRecDepth 8000 in
/-- C1 witness: the amended guarantee discharged on `object { }` — the one
top-level object ends with a non-empty (gray) material sequence. -/
theorem C1_amended_witness :
    ¬((parseVrIntoScene 99 emtpyScene "object \x7b \x7d").objects.getD 0 emptyObj).materials = [] :=
  (C1_amended 99 emtpyScene "object \x7b \x7d").1 _
    (by
      have hlen : 0 < (parseVrIntoScene 99 emtpyScene "object \x7b \x7d").objects.length := by
        decide
      rw [List.getD_eq_getElem _ _ hlen]
      exact List.getElem_mem hlen)

theorem C3_amended_witness :
    ((parseRBox [Tok.ident "v", Tok.num 0, Tok.num 0, Tok.num 0, Tok.ident "v", Tok.num 1,
          Tok.num 1, Tok.num 1, Tok.eof] 0
        (Obj.node { materials := [rgbMaterial 1 0 0] } []) none none).2.1.views.getLast?).map
        View.material =
      some (resolveMat (Obj.node { materials := [rgbMaterial 1 0 0] } []).materials none) :=
  C3_amended.2.2.1
    [Tok.ident "v", Tok.num 0, Tok.num 0, Tok.num 0, Tok.ident "v", Tok.num 1, Tok.num 1,
      Tok.num 1, Tok.eof] 0
    (Obj.node { materials := [rgbMaterial 1 0 0] } []) none none
    (parseRBox [Tok.ident "v", Tok.num 0, Tok.num 0, Tok.num 0, Tok.ident "v", Tok.num 1,
        Tok.num 1, Tok.num 1, Tok.eof] 0
      (Obj.node { materials := [rgbMaterial 1 0 0] } []) none none).2.1
    (parseRBox [Tok.ident "v", Tok.num 0, Tok.num 0, Tok.num 0, Tok.ident "v", Tok.num 1,
        Tok.num 1, Tok.num 1, Tok.eof] 0
      (Obj.node { materials := [rgbMaterial 1 0 0] } []) none none).2.2
    (by rfl)

end Vr
